import Mathlib

/-!
Verification of the CivicPulse issue-lifecycle engine.

This file is a shallow embedding of the server-side core of the repository:

* `server/db/schema_phase3.sql` — the `reports` table and the
  `update_emergency_flag` trigger (fired BEFORE INSERT OR UPDATE);
* `lib/stateMachine.js` — `TRANSITIONS`, `canTransition`, `applyTransition`
  and the geofence guard for `IN_PROGRESS`;
* `routes/reports.js` — `POST /api/reports` (validation, point-in-polygon
  routing, 50 m duplicate detection, merge / new-root insertion);
* `routes/verify.js` — `POST /api/reports/:id/verify` (citizen verification);
* `routes/analytics.js` — `POST /api/reports/:id/proof` (resolution proof);
* `lib/escalation.js` — `runAutoPromotion` and `runEscalationCheck` with
  `escalateReport`, over the non-throwing dispatch wrappers of `lib/mailer.js`
  and `lib/sms.js`.

Modelling conventions.  The database is a list of rows in physical order;
`UPDATE … WHERE id = $1` maps the update over every row whose id matches, and
each touched row passes through the `update_emergency_flag` trigger.
Timestamps are integers (hours — the engine's thresholds are 72/120/168 hours
and `escalateReport` floors elapsed time to whole hours).  Geometric
computations of the source (PostGIS `ST_Contains`/`ST_DWithin` and the
floating-point haversine of `stateMachine.js`) are abstracted as parameters:
a ward carries its containment test, and the metre-valued distance function
is an explicit argument wherever the source computes one.  Columns of the
`reports` table not read or written by the modelled operations
(`image_url`, `capture_timestamp`, `reporter_token`, vote counters) are
omitted.  Missing or NaN results of `parseFloat` are modelled as `none`,
and JavaScript string falsiness (absent or empty) as `strFalsy`.
-/

/-- Workflow states of a report (schema `state` column / `stateMachine.js`). -/
inductive RState where
  | SUBMITTED
  | VERIFIED
  | ASSIGNED
  | IN_PROGRESS
  | RESOLVED
  | MERGED
deriving DecidableEq

/-- Severity levels (schema `severity_level` column). -/
inductive Severity where
  | low
  | medium
  | high
  | critical
deriving DecidableEq

/-- A latitude/longitude pair.  Only compared and fed to the abstract
distance or containment functions, never computed with. -/
structure Coord where
  lat : ℤ
  lon : ℤ
deriving DecidableEq

/-- A row of the `reports` table (schema_phase3.sql), restricted to the
columns the modelled operations read or write. -/
structure Report where
  id : ℕ
  category : String
  description : String
  locationText : Option String
  coord : Option Coord
  wardId : Option ℕ
  parentReportId : Option ℕ
  supporterCount : ℕ
  verificationCount : ℕ
  severity : Severity
  isEmergency : Bool
  state : RState
  status : String
  slaLevel : ℕ
  assignedOfficerEmail : Option String
  assignedOfficerPhone : Option String
  createdAt : ℤ
  verifiedAt : Option ℤ
  assignedAt : Option ℤ
  inProgressAt : Option ℤ
  resolvedAt : Option ℤ
  lastEscalatedAt : Option ℤ
  autoEscalatedAt : Option ℤ
deriving DecidableEq

/-- The `update_emergency_flag` trigger of schema_phase3.sql: BEFORE INSERT OR
UPDATE, if `NEW.supporter_count >= 10 OR NEW.severity_level = 'critical'` then
`NEW.is_emergency = TRUE` (one-way: the flag is never cleared). -/
def update_emergency_flag (r : Report) : Report :=
  if 10 ≤ r.supporterCount ∨ r.severity = Severity.critical then
    { r with isEmergency := true }
  else r

/-- `UPDATE reports SET … WHERE id = i`: applies `f` to every row whose id is
`i`; each updated row passes through the BEFORE UPDATE trigger. -/
def updateById (i : ℕ) (f : Report → Report) (db : List Report) : List Report :=
  db.map (fun r => if r.id = i then update_emergency_flag (f r) else r)

/-- `INSERT INTO reports …`: appends the row after the BEFORE INSERT trigger. -/
def insertReport (db : List Report) (r : Report) : List Report :=
  db ++ [update_emergency_flag r]

/-- `SELECT … FROM reports WHERE id = i` (id is the primary key). -/
def findReport (db : List Report) (i : ℕ) : Option Report :=
  db.find? (fun r => decide (r.id = i))

/-- A row of `city_wards` together with its polygon-containment test
(`ST_Contains(ward_geometry, point)`, abstracted). -/
structure Ward where
  wardId : ℕ
  wardName : String
  officerName : Option String
  officerEmail : Option String
  officerPhone : Option String
  containsPt : Coord → Bool

/-- `LEFT JOIN city_wards w ON r.ward_id = w.ward_id`. -/
def wardById (wards : List Ward) (i : Option ℕ) : Option Ward :=
  i.bind (fun j => wards.find? (fun w => decide (w.wardId = j)))

/-- The transition map of `stateMachine.js` (`TRANSITIONS`): current state to
allowed next states. -/
def TRANSITIONS : RState → List RState
  | RState.SUBMITTED => [RState.VERIFIED]
  | RState.VERIFIED => [RState.ASSIGNED]
  | RState.ASSIGNED => [RState.IN_PROGRESS]
  | RState.IN_PROGRESS => [RState.RESOLVED]
  | RState.RESOLVED => []
  | RState.MERGED => []

/-- The content of the rejection reason built by `canTransition`: the reason
string interpolates the current state, the requested state and the full list
of valid next states. -/
structure TransReject where
  fromState : RState
  toState : RState
  validNextStates : List RState
deriving DecidableEq

/-- `canTransition(fromState, toState)`: `none` means allowed; otherwise the
structured content of the reason. -/
def canTransition (f t : RState) : Option TransReject :=
  if t ∈ TRANSITIONS f then none else some ⟨f, t, TRANSITIONS f⟩

/-- Errors thrown by `applyTransition` (each `throw Object.assign(new Error …)`
site of `stateMachine.js`). -/
inductive TransError where
  | notFound (reportId : ℕ)
  | invalidTransition (reject : TransReject)
  | officerGpsRequired
  | reportGpsMissing
  | geofenceViolation (distanceMetres : ℤ)
deriving DecidableEq

/-- The `metadata` argument of `applyTransition`. -/
structure TransMeta where
  officerLat : Option ℤ
  officerLon : Option ℤ
  officerEmail : Option String
  officerPhone : Option String
deriving DecidableEq

/-- JavaScript string truthiness: `undefined`/`null`/empty are falsy. -/
def strFalsy : Option String → Bool
  | none => true
  | some s => s.isEmpty

/-- The SET clause built by `applyTransition` step 3: state, the per-state
timestamp column of `STATE_TIMESTAMP`, and (for ASSIGNED, when supplied) the
officer contact snapshot. -/
def transitionUpdate (now : ℤ) (toState : RState) (meta : TransMeta) (r : Report) : Report :=
  let r1 :=
    match toState with
    | RState.VERIFIED => { r with state := toState, verifiedAt := some now }
    | RState.ASSIGNED => { r with state := toState, assignedAt := some now }
    | RState.IN_PROGRESS => { r with state := toState, inProgressAt := some now }
    | _ => { r with state := toState }
  let r2 :=
    if toState = RState.ASSIGNED ∧ strFalsy meta.officerEmail = false then
      { r1 with assignedOfficerEmail := meta.officerEmail }
    else r1
  if toState = RState.ASSIGNED ∧ strFalsy meta.officerPhone = false then
    { r2 with assignedOfficerPhone := meta.officerPhone }
  else r2

/-- `applyTransition(reportId, toState, metadata)` of `stateMachine.js`:
fetch under lock, validate against the transition map, run the geofence guard
when the target is IN_PROGRESS (officer coordinates required, report
coordinates required, measured distance at most 100 m), then apply the update
and return the updated row.  `dist` abstracts `haversineDistance`. -/
def applyTransition (dist : Coord → Coord → ℤ) (now : ℤ) (db : List Report)
    (reportId : ℕ) (toState : RState) (meta : TransMeta) :
    Except TransError (List Report × Report) :=
  match findReport db reportId with
  | none => Except.error (TransError.notFound reportId)
  | some report =>
    match canTransition report.state toState with
    | some rej => Except.error (TransError.invalidTransition rej)
    | none =>
      let guardRes : Except TransError Unit :=
        if toState = RState.IN_PROGRESS then
          match meta.officerLat, meta.officerLon with
          | some oLat, some oLon =>
            match report.coord with
            | none => Except.error TransError.reportGpsMissing
            | some c =>
              let d := dist { lat := oLat, lon := oLon } c
              if 100 < d then Except.error (TransError.geofenceViolation d)
              else Except.ok ()
          | _, _ => Except.error TransError.officerGpsRequired
        else Except.ok ()
      match guardRes with
      | Except.error e => Except.error e
      | Except.ok _ =>
        Except.ok
          (updateById reportId (transitionUpdate now toState meta) db,
           update_emergency_flag (transitionUpdate now toState meta report))

/-- Errors of `POST /api/reports/:id/proof` (routes/analytics.js). -/
inductive ProofError where
  | notFound (reportId : ℕ)
  | notInProgress (currentState : RState)
  | tooFar (distanceMetres : ℤ)
deriving DecidableEq

/-- `POST /api/reports/:id/proof`: requires the report to be IN_PROGRESS,
geofences the officer when the report has coordinates (skipping the check
when it has none), then writes state RESOLVED, status resolved and
`resolved_at` directly. -/
def submitProof (dist : Coord → Coord → ℤ) (now : ℤ) (db : List Report)
    (reportId : ℕ) (officer : Coord) : Except ProofError (List Report) :=
  match findReport db reportId with
  | none => Except.error (ProofError.notFound reportId)
  | some report =>
    if report.state = RState.IN_PROGRESS then
      let resolveUpd : Report → Report := fun r =>
        { r with state := RState.RESOLVED, status := "resolved", resolvedAt := some now }
      match report.coord with
      | some c =>
        let d := dist officer c
        if 100 < d then Except.error (ProofError.tooFar d)
        else Except.ok (updateById reportId resolveUpd db)
      | none => Except.ok (updateById reportId resolveUpd db)
    else Except.error (ProofError.notInProgress report.state)

/-- The request body of `POST /api/reports`, after `parseFloat` of the GPS
fields (`none` models a missing field or a NaN parse). -/
structure SubmitInput where
  category : Option String
  description : Option String
  locationText : Option String
  gpsLat : Option ℤ
  gpsLon : Option ℤ
  severityLevel : Option String
deriving DecidableEq

/-- `validSeverity` of routes/reports.js: the supplied level when it is one of
the four known values, otherwise the default medium. -/
def parseSeverity : Option String → Severity
  | some "low" => Severity.low
  | some "medium" => Severity.medium
  | some "high" => Severity.high
  | some "critical" => Severity.critical
  | _ => Severity.medium

/-- Validation failures of `POST /api/reports` (the two 400 responses). -/
inductive IngestError where
  | missingCategoryOrDescription
  | missingGps
deriving DecidableEq

/-- The response fields of `POST /api/reports` the claims speak about. -/
structure IngestOk where
  reportId : ℕ
  isDuplicate : Bool
  parentReportId : Option ℕ
  supporterCount : ℕ
deriving DecidableEq

/-- The WHERE clause of the duplicate-detection query: same category, state
not RESOLVED or MERGED, no parent, and within 50 m of the new point
(`ST_DWithin(coordinates::geography, point, 50)`; a row with NULL coordinates
never matches). -/
def dedupCandidate (dist : Coord → Coord → ℤ) (pt : Coord) (cat : String) (r : Report) : Bool :=
  decide (r.category = cat) &&
  !(decide (r.state = RState.RESOLVED) || decide (r.state = RState.MERGED)) &&
  decide (r.parentReportId = none) &&
  (match r.coord with
   | some c => decide (dist c pt ≤ 50)
   | none => false)

/-- `ORDER BY created_at ASC LIMIT 1` over the matching rows: the first row,
in physical order, holding the minimal `created_at` (ties among equal
timestamps are not broken by any further key in the query). -/
def pickEarliest : List Report → Option Report
  | [] => none
  | r :: rs =>
    match pickEarliest rs with
    | none => some r
    | some b => if b.createdAt < r.createdAt then some b else some r

/-- The fields shared by both INSERT statements of `POST /api/reports`. -/
def baseRow (nextId : ℕ) (now : ℤ) (inp : SubmitInput) (pt : Coord)
    (ward : Option Ward) : Report :=
  { id := nextId
    category := inp.category.getD ""
    description := inp.description.getD ""
    locationText := inp.locationText
    coord := some pt
    wardId := ward.map Ward.wardId
    parentReportId := none
    supporterCount := 1
    verificationCount := 0
    severity := parseSeverity inp.severityLevel
    isEmergency := false
    state := RState.SUBMITTED
    status := "active"
    slaLevel := 0
    assignedOfficerEmail := none
    assignedOfficerPhone := none
    createdAt := now
    verifiedAt := none
    assignedAt := none
    inProgressAt := none
    resolvedAt := none
    lastEscalatedAt := none
    autoEscalatedAt := none }

/-- `POST /api/reports`: validate (category and description required, GPS
coordinates required), route via point-in-polygon (first containing ward
wins, no match leaves the ward null), search for a duplicate root within
50 m of the same category, then either insert a MERGED child and increment
the parent's supporter count, or insert a new SUBMITTED root. -/
def ingest (dist : Coord → Coord → ℤ) (wards : List Ward) (now : ℤ) (nextId : ℕ)
    (db : List Report) (inp : SubmitInput) :
    Except IngestError (List Report × IngestOk) :=
  if strFalsy inp.category || strFalsy inp.description then
    Except.error IngestError.missingCategoryOrDescription
  else
    match inp.gpsLat, inp.gpsLon with
    | some lat, some lon =>
      let pt : Coord := { lat := lat, lon := lon }
      let ward := wards.find? (fun w => w.containsPt pt)
      let cat := inp.category.getD ""
      match pickEarliest (db.filter (dedupCandidate dist pt cat)) with
      | some dup =>
        let child : Report :=
          { baseRow nextId now inp pt ward with
              parentReportId := some dup.id
              state := RState.MERGED
              status := "merged" }
        let db1 := insertReport db child
        let db2 := updateById dup.id
          (fun r => { r with supporterCount := r.supporterCount + 1 }) db1
        Except.ok (db2,
          { reportId := nextId
            isDuplicate := true
            parentReportId := some dup.id
            supporterCount := dup.supporterCount + 1 })
      | none =>
        Except.ok (insertReport db (baseRow nextId now inp pt ward),
          { reportId := nextId
            isDuplicate := false
            parentReportId := none
            supporterCount := 1 })
    | _, _ => Except.error IngestError.missingGps

/-- Failure responses of `POST /api/reports/:id/verify` (routes/verify.js). -/
inductive VerifyError where
  | tokenTooShort
  | notFound (reportId : ℕ)
  | alreadyVerified
deriving DecidableEq

/-- The UPDATE of routes/verify.js: bump `verification_count` and
`supporter_count`, and auto-promote SUBMITTED to VERIFIED stamping
`verified_at` (both CASE expressions read the old state). -/
def verifyUpdate (now : ℤ) (r : Report) : Report :=
  { r with
      verificationCount := r.verificationCount + 1
      supporterCount := r.supporterCount + 1
      state := if r.state = RState.SUBMITTED then RState.VERIFIED else r.state
      verifiedAt := if r.state = RState.SUBMITTED then some now else r.verifiedAt }

/-- `POST /api/reports/:id/verify`: token of at least 8 characters, report
must exist, one verification per token per report; on success a
`user_verifications` row is inserted and the report updated. -/
def verifyReport (now : ℤ) (db : List Report) (verifs : List (ℕ × String))
    (reportId : ℕ) (token : String) :
    Except VerifyError (List Report × List (ℕ × String)) :=
  if token.length < 8 then Except.error VerifyError.tokenTooShort
  else
    match findReport db reportId with
    | none => Except.error (VerifyError.notFound reportId)
    | some _ =>
      if (reportId, token) ∈ verifs then Except.error VerifyError.alreadyVerified
      else
        Except.ok (updateById reportId (verifyUpdate now) db, verifs ++ [(reportId, token)])

/-- The WHERE clause of the SUBMITTED-to-VERIFIED statement of
`runAutoPromotion`: SUBMITTED, no parent, created more than 72 h ago. -/
def autoVerifyPred (now : ℤ) (r : Report) : Bool :=
  decide (r.state = RState.SUBMITTED) &&
  decide (r.parentReportId = none) &&
  decide (r.createdAt < now - 72)

/-- The SET clause of that statement: VERIFIED, stamp `verified_at` and
`auto_escalated_at`, raise the stored tier to at least 1. -/
def autoVerifyUpdate (now : ℤ) (r : Report) : Report :=
  { r with
      state := RState.VERIFIED
      verifiedAt := some now
      autoEscalatedAt := some now
      slaLevel := max r.slaLevel 1 }

/-- First statement of `runAutoPromotion` as a whole-table update. -/
def autoStep1 (now : ℤ) (db : List Report) : List Report :=
  db.map (fun r =>
    if autoVerifyPred now r then update_emergency_flag (autoVerifyUpdate now r) else r)

/-- The WHERE clause of the VERIFIED-to-ASSIGNED selection: VERIFIED, no
parent, verified more than 72 h ago (a NULL `verified_at` never matches). -/
def autoAssignPred (now : ℤ) (r : Report) : Bool :=
  decide (r.state = RState.VERIFIED) &&
  decide (r.parentReportId = none) &&
  (match r.verifiedAt with
   | some t => decide (t < now - 72)
   | none => false)

/-- The joined ward officer email used for the assignment
(`r.officer_email || null`). -/
def wardEmailOf (wards : List Ward) (r : Report) : Option String :=
  match wardById wards r.wardId with
  | some w => w.officerEmail
  | none => none

/-- The per-id UPDATE of the VERIFIED-to-ASSIGNED loop: ASSIGNED, stamp
`assigned_at` and `auto_escalated_at`, store the ward officer email, raise
the stored tier to at least 1. -/
def autoAssignUpdate (now : ℤ) (email : Option String) (r : Report) : Report :=
  { r with
      state := RState.ASSIGNED
      assignedAt := some now
      autoEscalatedAt := some now
      assignedOfficerEmail := email
      slaLevel := max r.slaLevel 1 }

/-- Second phase of `runAutoPromotion`: select the stuck VERIFIED reports,
then run one UPDATE per selected row, keyed by its id. -/
def autoStep2 (wards : List Ward) (now : ℤ) (db : List Report) : List Report :=
  (db.filter (autoAssignPred now)).foldl
    (fun acc r => updateById r.id (autoAssignUpdate now (wardEmailOf wards r)) acc) db

/-- The WHERE clause of the urgent-marking statement: ASSIGNED, no parent,
assigned more than 120 h ago, stored tier below 2. -/
def autoUrgentPred (now : ℤ) (r : Report) : Bool :=
  decide (r.state = RState.ASSIGNED) &&
  decide (r.parentReportId = none) &&
  (match r.assignedAt with
   | some t => decide (t < now - 120)
   | none => false) &&
  decide (r.slaLevel < 2)

/-- The SET clause of that statement: tier to at least 2, stamp
`last_escalated_at`; deliberately no state change. -/
def autoUrgentUpdate (now : ℤ) (r : Report) : Report :=
  { r with slaLevel := max r.slaLevel 2, lastEscalatedAt := some now }

/-- Third statement of `runAutoPromotion` as a whole-table update. -/
def autoStep3 (now : ℤ) (db : List Report) : List Report :=
  db.map (fun r =>
    if autoUrgentPred now r then update_emergency_flag (autoUrgentUpdate now r) else r)

/-- `runAutoPromotion` of lib/escalation.js: the three statements in order. -/
def runAutoPromotion (wards : List Ward) (now : ℤ) (db : List Report) : List Report :=
  autoStep3 now (autoStep2 wards now (autoStep1 now db))

/-- A row of the append-only `escalation_log`. -/
structure LogEntry where
  reportId : ℕ
  level : ℕ
  action : String
  recipient : String
  success : Bool
deriving DecidableEq

/-- Environment of one escalation sweep: the outcomes of the non-throwing
dispatch wrappers (`sendEscalationEmail` and `sendSMS` return a success flag
and never throw), the executive and commissioner contacts from the
environment, and a fault model for the tier-update persistence call
(`pool.query` may reject; its rejection propagates out of `escalateReport`). -/
structure DispatchEnv where
  emailSuccess : ℕ → ℕ → String → Bool
  smsSuccess : ℕ → ℕ → String → Bool
  updateFails : ℕ → Bool
  execEmail : String
  execPhone : String
  commEmail : String
  commPhone : Option String

/-- The candidate row of the escalation SELECT (issue joined with its ward). -/
structure EscRow where
  id : ℕ
  slaLevel : ℕ
  assignedAt : ℤ
  assignedOfficerEmail : Option String
  wardOfficerEmail : Option String
deriving DecidableEq

/-- The WHERE clause of the escalation SELECT: ASSIGNED or IN_PROGRESS,
`assigned_at` set, stored tier below 3, assigned more than 72 h ago. -/
def escCandidatePred (now : ℤ) (r : Report) : Bool :=
  (decide (r.state = RState.ASSIGNED) || decide (r.state = RState.IN_PROGRESS)) &&
  r.assignedAt.isSome &&
  decide (r.slaLevel < 3) &&
  (match r.assignedAt with
   | some t => decide (t < now - 72)
   | none => false)

/-- Projection of a candidate report to the joined row the sweep iterates. -/
def escRowOf (wards : List Ward) (r : Report) : EscRow :=
  { id := r.id
    slaLevel := r.slaLevel
    assignedAt := r.assignedAt.getD 0
    assignedOfficerEmail := r.assignedOfficerEmail
    wardOfficerEmail :=
      match wardById wards r.wardId with
      | some w => w.officerEmail
      | none => none }

/-- Stable insertion step for `ORDER BY assigned_at ASC`. -/
def insertByAssigned (r : EscRow) : List EscRow → List EscRow
  | [] => [r]
  | b :: bs => if b.assignedAt < r.assignedAt then b :: insertByAssigned r bs else r :: b :: bs

/-- Stable sort realising `ORDER BY assigned_at ASC` of the candidate rows. -/
def sortByAssigned : List EscRow → List EscRow
  | [] => []
  | r :: rs => insertByAssigned r (sortByAssigned rs)

/-- JavaScript `a || b` over optional strings. -/
def optOr (a b : Option String) : Option String :=
  match a with
  | some x => some x
  | none => b

/-- `targetLevel` computed by `escalateReport` from the elapsed whole hours
since assignment (0 encodes the early return below L1). -/
def targetLevelOf (now assignedAt : ℤ) : ℕ :=
  if 168 ≤ now - assignedAt then 3
  else if 120 ≤ now - assignedAt then 2
  else if 72 ≤ now - assignedAt then 1
  else 0

/-- The `actions` array built by `escalateReport` for the target tier: tier 1
notifies the ward (or assigned) officer by email, recording a failed action
when no address exists; tier 2 re-sends the tier-1 email when an address
exists and always emails and texts the executive engineer; tier 3 emails the
commissioner and texts them when a phone is configured.  Every entry records
the success flag returned by the dispatch wrapper. -/
def escalateActions (env : DispatchEnv) (target : ℕ) (row : EscRow) : List LogEntry :=
  (if target = 1 then
    match optOr row.wardOfficerEmail row.assignedOfficerEmail with
    | some rec => [⟨row.id, target, "email_l1", rec, env.emailSuccess 1 row.id rec⟩]
    | none => [⟨row.id, target, "email_l1", "NONE", false⟩]
   else []) ++
  (if target = 2 then
    (match optOr row.wardOfficerEmail row.assignedOfficerEmail with
     | some w => [⟨row.id, target, "email_l1", w, env.emailSuccess 1 row.id w⟩]
     | none => []) ++
    [⟨row.id, target, "email_l2", env.execEmail, env.emailSuccess 2 row.id env.execEmail⟩,
     ⟨row.id, target, "sms_l2", env.execPhone, env.smsSuccess 2 row.id env.execPhone⟩]
   else []) ++
  (if target = 3 then
    ⟨row.id, target, "email_l3", env.commEmail, env.emailSuccess 3 row.id env.commEmail⟩ ::
    (match env.commPhone with
     | some p => [⟨row.id, target, "sms_l3", p, env.smsSuccess 3 row.id p⟩]
     | none => [])
   else [])

/-- `escalateReport` on one candidate: early return below L1 or when the
target does not exceed the stored tier; otherwise dispatch the notifications,
persist the new tier (this `pool.query` may reject, modelled by
`env.updateFails`) and append one audit row per dispatch attempt. -/
def escalateReport (env : DispatchEnv) (now : ℤ)
    (st : List Report × List LogEntry) (row : EscRow) :
    Except Unit (List Report × List LogEntry) :=
  let target := targetLevelOf now row.assignedAt
  if target = 0 then Except.ok st
  else if target ≤ row.slaLevel then Except.ok st
  else
    let actions := escalateActions env target row
    if env.updateFails row.id then Except.error ()
    else
      Except.ok
        (updateById row.id
          (fun r => { r with slaLevel := target, lastEscalatedAt := some now }) st.1,
         st.2 ++ actions)

/-- The candidate loop of `runEscalationCheck`: the whole loop sits in one
try/catch, so the first rejection stops processing and leaves the changes
committed so far (each statement of `escalateReport` auto-commits). -/
def processEsc (env : DispatchEnv) (now : ℤ) :
    List EscRow → List Report × List LogEntry → List Report × List LogEntry
  | [], st => st
  | row :: rest, st =>
    match escalateReport env now st row with
    | Except.error _ => st
    | Except.ok st2 => processEsc env now rest st2

/-- `runEscalationCheck` of lib/escalation.js: select and sort the breached
candidates, then escalate each in order under the batch-scoped catch. -/
def runEscalationCheck (env : DispatchEnv) (wards : List Ward) (now : ℤ)
    (db : List Report) (logs : List LogEntry) : List Report × List LogEntry :=
  processEsc env now
    (sortByAssigned ((db.filter (escCandidatePred now)).map (escRowOf wards)))
    (db, logs)

/-- The whole mutable store: reports, `user_verifications`, `escalation_log`
and the id sequence. -/
structure SysState where
  db : List Report
  verifs : List (ℕ × String)
  logs : List LogEntry
  nextId : ℕ

/-- The empty store. -/
def initState : SysState :=
  { db := [], verifs := [], logs := [], nextId := 0 }

/-- One public operation of the engine, with every external input (clock,
wards, dispatch outcomes, abstract distances) carried by the operation. -/
inductive Op where
  | ingestOp (dist : Coord → Coord → ℤ) (wards : List Ward) (now : ℤ) (inp : SubmitInput)
  | verifyOp (now : ℤ) (reportId : ℕ) (token : String)
  | transitionOp (dist : Coord → Coord → ℤ) (now : ℤ) (reportId : ℕ)
      (toState : RState) (meta : TransMeta)
  | proofOp (dist : Coord → Coord → ℤ) (now : ℤ) (reportId : ℕ) (officer : Coord)
  | autoPromotionOp (wards : List Ward) (now : ℤ)
  | escalationOp (env : DispatchEnv) (wards : List Ward) (now : ℤ)

/-- Executes one operation; a failed request rolls back and leaves the store
unchanged. -/
def applyOp (s : SysState) : Op → SysState
  | Op.ingestOp dist wards now inp =>
    match ingest dist wards now s.nextId s.db inp with
    | Except.ok (db2, _) => { s with db := db2, nextId := s.nextId + 1 }
    | Except.error _ => s
  | Op.verifyOp now rid token =>
    match verifyReport now s.db s.verifs rid token with
    | Except.ok (db2, v2) => { s with db := db2, verifs := v2 }
    | Except.error _ => s
  | Op.transitionOp dist now rid toState meta =>
    match applyTransition dist now s.db rid toState meta with
    | Except.ok (db2, _) => { s with db := db2 }
    | Except.error _ => s
  | Op.proofOp dist now rid officer =>
    match submitProof dist now s.db rid officer with
    | Except.ok db2 => { s with db := db2 }
    | Except.error _ => s
  | Op.autoPromotionOp wards now => { s with db := runAutoPromotion wards now s.db }
  | Op.escalationOp env wards now =>
    let p := runEscalationCheck env wards now s.db s.logs
    { s with db := p.1, logs := p.2 }

/-- Executes a sequence of operations from a starting store. -/
def applyOps (ops : List Op) (s : SysState) : SysState :=
  ops.foldl applyOp s

deriving instance DecidableEq for Except

/-- Emergency condition of the spec and trigger, as a Boolean of the row:
severity critical or at least 10 supporters. -/
def econd (r : Report) : Bool :=
  decide (r.severity = Severity.critical) || decide (10 ≤ r.supporterCount)

/-- Number of rows whose parent reference equals `i` (the children of `i`). -/
def childCount (db : List Report) (i : ℕ) : ℕ :=
  db.countP (fun c => decide (c.parentReportId = some i))

/-- Number of `user_verifications` rows recorded against report `i`. -/
def verifCountOf (verifs : List (ℕ × String)) (i : ℕ) : ℕ :=
  verifs.countP (fun v => decide (v.1 = i))

/-- The supporter-count invariant exactly as the spec states it: every root's
supporter count equals one plus its number of children. -/
def claimedSupporterInvariant (s : SysState) : Prop :=
  ∀ r ∈ s.db, r.parentReportId = none →
    r.supporterCount = 1 + childCount s.db r.id

/-- The supporter-count accounting the code actually maintains: every root's
supporter count equals one plus its children plus the citizen verifications
recorded against it. -/
def supporterAccounting (s : SysState) : Prop :=
  ∀ r ∈ s.db, r.parentReportId = none →
    r.supporterCount = 1 + childCount s.db r.id + verifCountOf s.verifs r.id

/-- Every row's emergency flag agrees with the derivation rule. -/
def emergencyConsistent (db : List Report) : Prop :=
  ∀ r ∈ db, r.isEmergency = econd r

/-- Bookkeeping facts maintained by the id sequence: every row id, parent
reference and verification row points below the next fresh id. -/
def freshIds (s : SysState) : Prop :=
  (∀ r ∈ s.db, r.id < s.nextId) ∧
  (∀ r ∈ s.db, ∀ j, r.parentReportId = some j → j < s.nextId) ∧
  (∀ v ∈ s.verifs, v.1 < s.nextId)

/-- The inductive invariant of the store: fresh ids, primary-key uniqueness,
supporter accounting and emergency-flag consistency. -/
def goodSys (s : SysState) : Prop :=
  freshIds s ∧ (s.db.map Report.id).Nodup ∧ supporterAccounting s ∧
    emergencyConsistent s.db

/-- Modelled from the spec for comparison with the code's `pickEarliest`:
"among matches, the earliest-created wins (stable tie-break by creation
order, then id)" — the minimum under the lexicographic (created_at, id)
order. -/
def specTieBreakPick : List Report → Option Report
  | [] => none
  | r :: rs =>
    match specTieBreakPick rs with
    | none => some r
    | some b =>
      if b.createdAt < r.createdAt ∨ (b.createdAt = r.createdAt ∧ b.id < r.id) then some b
      else some r

/-- One run of either periodic sweep, with its external inputs. -/
inductive SweepRun where
  | auto (wards : List Ward) (now : ℤ)
  | esc (env : DispatchEnv) (wards : List Ward) (now : ℤ)

/-- Executes one sweep run over the reports table and the escalation log. -/
def applySweep (st : List Report × List LogEntry) : SweepRun → List Report × List LogEntry
  | SweepRun.auto wards now => (runAutoPromotion wards now st.1, st.2)
  | SweepRun.esc env wards now => runEscalationCheck env wards now st.1 st.2

/-- Executes a sequence of sweep runs. -/
def applySweeps (runs : List SweepRun) (st : List Report × List LogEntry) :
    List Report × List LogEntry :=
  runs.foldl applySweep st

/-- The action of the VERIFIED-to-ASSIGNED loop of `autoStep2` on a single
row: the per-id updates of the selected rows, folded in selection order.
`autoStep2` is pointwise equal to mapping this function (proved below). -/
def applySel (wards : List Ward) (now : ℤ) (sel : List Report) (x : Report) : Report :=
  sel.foldl
    (fun v r =>
      if v.id = r.id then
        update_emergency_flag (autoAssignUpdate now (wardEmailOf wards r) v)
      else v) x

/-- A distance oracle that always answers 0 m (officer on site). -/
def dZero : Coord → Coord → ℤ := fun _ _ => 0

/-- A distance oracle that always answers 101 m (officer just outside the
geofence). -/
def dFar : Coord → Coord → ℤ := fun _ _ => 101

/-- A well-formed submission at the origin. -/
def inpOrigin : SubmitInput :=
  { category := some "pothole", description := some "Deep pothole", locationText := none,
    gpsLat := some 0, gpsLon := some 0, severityLevel := none }

/-- A submission carrying no coordinate at all. -/
def inpNoGps : SubmitInput :=
  { category := some "pothole", description := some "Deep pothole", locationText := none,
    gpsLat := none, gpsLon := none, severityLevel := none }

/-- A freshly submitted root report with coordinates, used by the concrete
witnesses. -/
def rBase : Report :=
  { id := 1, category := "pothole", description := "Deep pothole", locationText := none,
    coord := some ⟨0, 0⟩, wardId := none, parentReportId := none,
    supporterCount := 1, verificationCount := 0, severity := Severity.medium,
    isEmergency := false, state := RState.SUBMITTED, status := "active",
    slaLevel := 0, assignedOfficerEmail := none, assignedOfficerPhone := none,
    createdAt := 0, verifiedAt := none, assignedAt := none, inProgressAt := none,
    resolvedAt := none, lastEscalatedAt := none, autoEscalatedAt := none }

/-- The witness report in a given state with a given id. -/
def rIn (i : ℕ) (st : RState) : Report := { rBase with id := i, state := st }

/-- An ASSIGNED report with the given id and assignment time. -/
def rAssigned (i : ℕ) (t : ℤ) : Report :=
  { rBase with id := i, state := RState.ASSIGNED, assignedAt := some t }

/-- Officer metadata located at the origin. -/
def metaAtSite : TransMeta :=
  { officerLat := some 0, officerLon := some 0, officerEmail := none, officerPhone := none }

/-- Officer metadata with no coordinates. -/
def metaNoGps : TransMeta :=
  { officerLat := none, officerLon := none, officerEmail := none, officerPhone := none }

/-- Dispatch environment whose persistence call fails for report 1 only. -/
def envFailOn1 : DispatchEnv :=
  { emailSuccess := fun _ _ _ => true, smsSuccess := fun _ _ _ => true,
    updateFails := fun i => decide (i = 1), execEmail := "exec@example.org",
    execPhone := "555-0100", commEmail := "comm@example.org", commPhone := none }

/-- Dispatch environment with no persistence failures and all dispatches
succeeding. -/
def envAllOk : DispatchEnv :=
  { envFailOn1 with updateFails := fun _ => false }

/-- Dispatch environment with no persistence failures and every dispatch
failing. -/
def envAllDispatchFail : DispatchEnv :=
  { envFailOn1 with
      updateFails := fun _ => false
      emailSuccess := fun _ _ _ => false
      smsSuccess := fun _ _ _ => false }

/-- The two-operation run refuting the spec's supporter-count claim: one
ingested root, then one citizen verification of it. -/
def demoOps : List Op :=
  [Op.ingestOp dZero [] 0 inpOrigin, Op.verifyOp 1 0 "citizen-0001"]

/-- Two same-category roots with equal creation times, the larger id stored
physically first: the duplicate query's `ORDER BY created_at` alone cannot
separate them. -/
def dbTie : List Report := [rIn 2 RState.SUBMITTED, rIn 1 RState.SUBMITTED]

theorem uef_eq (r : Report) :
    update_emergency_flag r = { r with isEmergency := econd r || r.isEmergency } := by
  unfold update_emergency_flag econd
  split
  · rename_i h
    rcases h with h | h <;> simp [h]
  · rename_i h
    push_neg at h
    have h10 : ¬ (10 ≤ r.supporterCount) := by omega
    simp [h10, h.2]

theorem isOk_error {ε α : Type} (e : ε) : (Except.error e : Except ε α).isOk = false := rfl

theorem isOk_ok {ε α : Type} (a : α) : (Except.ok a : Except ε α).isOk = true := rfl

theorem canTransition_merged (st : RState) :
    canTransition st RState.MERGED = some ⟨st, RState.MERGED, TRANSITIONS st⟩ := by
  cases st <;> rfl

theorem canTransition_resolved (st : RState) (h : st ≠ RState.IN_PROGRESS) :
    canTransition st RState.RESOLVED = some ⟨st, RState.RESOLVED, TRANSITIONS st⟩ := by
  cases st <;> first | rfl | exact absurd rfl h

/-- C7: a transition whose target is not in the allowed-next set of the
current state fails with the invalid-transition error carrying the current
state and the full allowed set, and leaves the store unchanged. -/
theorem c7_invalid_transition_rejected
    (dist : Coord → Coord → ℤ) (now : ℤ) (db : List Report) (rid : ℕ)
    (toState : RState) (meta : TransMeta) (r : Report)
    (hfind : findReport db rid = some r) (hnot : toState ∉ TRANSITIONS r.state) :
    applyTransition dist now db rid toState meta =
      Except.error (TransError.invalidTransition ⟨r.state, toState, TRANSITIONS r.state⟩) ∧
    ∀ s : SysState, s.db = db →
      applyOp s (Op.transitionOp dist now rid toState meta) = s := by
  have hcan : canTransition r.state toState = some ⟨r.state, toState, TRANSITIONS r.state⟩ := by
    unfold canTransition
    simp [hnot]
  have h1 : applyTransition dist now db rid toState meta =
      Except.error (TransError.invalidTransition ⟨r.state, toState, TRANSITIONS r.state⟩) := by
    simp only [applyTransition, hfind, hcan]
  refine ⟨h1, ?_⟩
  intro s hs
  simp only [applyOp, hs, h1]

theorem c7_witness :
    applyTransition dZero 0 [rIn 1 RState.SUBMITTED] 1 RState.RESOLVED metaAtSite =
      Except.error (TransError.invalidTransition
        ⟨RState.SUBMITTED, RState.RESOLVED, [RState.VERIFIED]⟩) :=
  (c7_invalid_transition_rejected dZero 0 [rIn 1 RState.SUBMITTED] 1 RState.RESOLVED metaAtSite
    (rIn 1 RState.SUBMITTED) (by decide) (by decide)).1

/-- C10: no transition call ever produces the MERGED state, and the
RESOLVED state is entered — whether through the state machine or through the
resolution-proof route — only from IN_PROGRESS. -/
theorem c10_merged_unreachable_resolved_guarded :
    (∀ (dist : Coord → Coord → ℤ) (now : ℤ) (db : List Report) (rid : ℕ) (meta : TransMeta),
       (applyTransition dist now db rid RState.MERGED meta).isOk = false) ∧
    (∀ (dist : Coord → Coord → ℤ) (now : ℤ) (db : List Report) (rid : ℕ) (meta : TransMeta),
       (applyTransition dist now db rid RState.RESOLVED meta).isOk = true →
       ∃ r, findReport db rid = some r ∧ r.state = RState.IN_PROGRESS) ∧
    (∀ (dist : Coord → Coord → ℤ) (now : ℤ) (db : List Report) (rid : ℕ) (officer : Coord),
       (submitProof dist now db rid officer).isOk = true →
       ∃ r, findReport db rid = some r ∧ r.state = RState.IN_PROGRESS) := by
  refine ⟨?_, ?_, ?_⟩
  · intro dist now db rid meta
    cases hfind : findReport db rid with
    | none => simp only [applyTransition, hfind, isOk_error]
    | some r => simp only [applyTransition, hfind, canTransition_merged r.state, isOk_error]
  · intro dist now db rid meta h
    cases hfind : findReport db rid with
    | none =>
      simp only [applyTransition, hfind, isOk_error] at h
      exact absurd h Bool.false_ne_true
    | some r =>
      by_cases hst : r.state = RState.IN_PROGRESS
      · exact ⟨r, rfl, hst⟩
      · simp only [applyTransition, hfind, canTransition_resolved r.state hst, isOk_error] at h
        exact absurd h Bool.false_ne_true
  · intro dist now db rid officer h
    cases hfind : findReport db rid with
    | none =>
      simp only [submitProof, hfind, isOk_error] at h
      exact absurd h Bool.false_ne_true
    | some r =>
      by_cases hst : r.state = RState.IN_PROGRESS
      · exact ⟨r, rfl, hst⟩
      · simp only [submitProof, hfind, if_neg hst, isOk_error] at h
        exact absurd h Bool.false_ne_true

theorem c10_witness :
    ∃ r, findReport [rIn 1 RState.IN_PROGRESS] 1 = some r ∧ r.state = RState.IN_PROGRESS :=
  c10_merged_unreachable_resolved_guarded.2.2 dZero 7 [rIn 1 RState.IN_PROGRESS] 1 ⟨0, 0⟩
    (by decide)

theorem canTransition_assigned_inprogress :
    canTransition RState.ASSIGNED RState.IN_PROGRESS = none := rfl

/-- C3 (amended): for a transition to IN_PROGRESS of an issue whose current
state admits it (ASSIGNED): missing officer coordinates reject; a missing
issue coordinate rejects; a measured distance above 100 m rejects carrying
that distance; a distance of at most 100 m succeeds, sets IN_PROGRESS and
stamps in_progress_at. -/
theorem c3_geofence_guard
    (dist : Coord → Coord → ℤ) (now : ℤ) (db : List Report) (rid : ℕ)
    (meta : TransMeta) (r : Report)
    (hfind : findReport db rid = some r) (hst : r.state = RState.ASSIGNED) :
    (meta.officerLat = none ∨ meta.officerLon = none →
       applyTransition dist now db rid RState.IN_PROGRESS meta =
         Except.error TransError.officerGpsRequired) ∧
    (∀ oLat oLon, meta.officerLat = some oLat → meta.officerLon = some oLon →
       r.coord = none →
       applyTransition dist now db rid RState.IN_PROGRESS meta =
         Except.error TransError.reportGpsMissing) ∧
    (∀ oLat oLon c, meta.officerLat = some oLat → meta.officerLon = some oLon →
       r.coord = some c → 100 < dist ⟨oLat, oLon⟩ c →
       applyTransition dist now db rid RState.IN_PROGRESS meta =
         Except.error (TransError.geofenceViolation (dist ⟨oLat, oLon⟩ c))) ∧
    (∀ oLat oLon c, meta.officerLat = some oLat → meta.officerLon = some oLon →
       r.coord = some c → dist ⟨oLat, oLon⟩ c ≤ 100 →
       ∃ r2, applyTransition dist now db rid RState.IN_PROGRESS meta =
           Except.ok (updateById rid (transitionUpdate now RState.IN_PROGRESS meta) db, r2) ∧
         r2.state = RState.IN_PROGRESS ∧ r2.inProgressAt = some now) := by
  have hcan : canTransition r.state RState.IN_PROGRESS = none := by
    rw [hst]
    exact canTransition_assigned_inprogress
  refine ⟨?_, ?_, ?_, ?_⟩
  · intro hmiss
    rcases hmiss with hmiss | hmiss
    · cases hLon : meta.officerLon with
      | none => simp only [applyTransition, hfind, hcan, hmiss, hLon, if_pos rfl, if_true]
      | some oLon => simp only [applyTransition, hfind, hcan, hmiss, hLon, if_pos rfl, if_true]
    · cases hLat : meta.officerLat with
      | none => simp only [applyTransition, hfind, hcan, hmiss, hLat, if_pos rfl, if_true]
      | some oLat => simp only [applyTransition, hfind, hcan, hmiss, hLat, if_pos rfl, if_true]
  · intro oLat oLon hLat hLon hcoord
    simp only [applyTransition, hfind, hcan, hLat, hLon, hcoord, if_pos rfl, if_true]
  · intro oLat oLon c hLat hLon hcoord hfar
    simp only [applyTransition, hfind, hcan, hLat, hLon, hcoord, if_pos rfl, if_true, if_pos hfar]
  · intro oLat oLon c hLat hLon hcoord hnear
    have hnotfar : ¬ (100 < dist ⟨oLat, oLon⟩ c) := by omega
    refine ⟨update_emergency_flag (transitionUpdate now RState.IN_PROGRESS meta r), ?_, ?_, ?_⟩
    · simp only [applyTransition, hfind, hcan, hLat, hLon, hcoord, if_pos rfl, if_true, if_neg hnotfar]
    · simp [uef_eq, transitionUpdate]
    · simp [uef_eq, transitionUpdate]

theorem c3_witness :
    ∃ r2, applyTransition dZero 9 [rAssigned 1 0] 1 RState.IN_PROGRESS metaAtSite =
        Except.ok (updateById 1 (transitionUpdate 9 RState.IN_PROGRESS metaAtSite) [rAssigned 1 0], r2) ∧
      r2.state = RState.IN_PROGRESS ∧ r2.inProgressAt = some 9 :=
  (c3_geofence_guard dZero 9 [rAssigned 1 0] 1 metaAtSite (rAssigned 1 0)
    (by decide) (by decide)).2.2.2 0 0 ⟨0, 0⟩ rfl rfl rfl (by decide)

theorem c3_counterexample :
    dZero ⟨0, 0⟩ ⟨0, 0⟩ ≤ 100 ∧
    applyTransition dZero 5 [rIn 1 RState.SUBMITTED] 1 RState.IN_PROGRESS metaAtSite =
      Except.error (TransError.invalidTransition
        ⟨RState.SUBMITTED, RState.IN_PROGRESS, [RState.VERIFIED]⟩) :=
  ⟨by decide, by decide⟩

/-- C5 (amended): ingestion rejects, before any persistence, exactly when
category or description is falsy or a GPS component is missing or
unparseable — the coordinate is mandatory, so a submission with no
coordinate is rejected rather than accepted. -/
theorem c5_validation_exact
    (dist : Coord → Coord → ℤ) (wards : List Ward) (now : ℤ) (nextId : ℕ)
    (db : List Report) (inp : SubmitInput) :
    ((∃ e, ingest dist wards now nextId db inp = Except.error e) ↔
      (strFalsy inp.category = true ∨ strFalsy inp.description = true ∨
       inp.gpsLat = none ∨ inp.gpsLon = none)) ∧
    (∀ s : SysState, s.db = db → s.nextId = nextId →
      (∃ e, ingest dist wards now nextId db inp = Except.error e) →
      applyOp s (Op.ingestOp dist wards now inp) = s) := by
  constructor
  · by_cases hv : (strFalsy inp.category || strFalsy inp.description) = true
    · have he : ingest dist wards now nextId db inp =
          Except.error IngestError.missingCategoryOrDescription := by
        simp only [ingest, if_pos hv]
      rw [Bool.or_eq_true] at hv
      exact ⟨fun _ => Or.elim hv (fun h => Or.inl h) (fun h => Or.inr (Or.inl h)),
        fun _ => ⟨IngestError.missingCategoryOrDescription, he⟩⟩
    · have hv2 : (strFalsy inp.category || strFalsy inp.description) = false :=
        Bool.not_eq_true _ ▸ Bool.of_not_eq_true hv
      have hc : strFalsy inp.category = false := by
        rcases Bool.or_eq_false_iff.mp hv2 with ⟨h1, h2⟩
        exact h1
      have hd : strFalsy inp.description = false := by
        rcases Bool.or_eq_false_iff.mp hv2 with ⟨h1, h2⟩
        exact h2
      cases hLat : inp.gpsLat with
      | none =>
        have he : ingest dist wards now nextId db inp = Except.error IngestError.missingGps := by
          cases hLon : inp.gpsLon <;> simp only [ingest, hv2, Bool.false_eq_true, if_false, hLat, hLon]
        exact ⟨fun _ => Or.inr (Or.inr (Or.inl rfl)),
          fun _ => ⟨IngestError.missingGps, he⟩⟩
      | some lat =>
        cases hLon : inp.gpsLon with
        | none =>
          have he : ingest dist wards now nextId db inp = Except.error IngestError.missingGps := by
            simp only [ingest, hv2, Bool.false_eq_true, if_false, hLat, hLon]
          exact ⟨fun _ => Or.inr (Or.inr (Or.inr rfl)),
            fun _ => ⟨IngestError.missingGps, he⟩⟩
        | some lon =>
          constructor
          · rintro ⟨e, he⟩
            cases hpick : pickEarliest (db.filter
                (dedupCandidate dist ⟨lat, lon⟩ (inp.category.getD ""))) with
            | some dup =>
              simp only [ingest, hv2, Bool.false_eq_true, if_false, hLat, hLon, hpick] at he
              exact Except.noConfusion he
            | none =>
              simp only [ingest, hv2, Bool.false_eq_true, if_false, hLat, hLon, hpick] at he
              exact Except.noConfusion he
          · intro h
            rcases h with h | h | h | h
            · rw [hc] at h
              exact absurd h Bool.false_ne_true
            · rw [hd] at h
              exact absurd h Bool.false_ne_true
            · exact absurd h (Option.some_ne_none lat)
            · exact absurd h (Option.some_ne_none lon)
  · rintro s hs hn ⟨e, he⟩
    simp only [applyOp, hs, hn, he]

theorem c5_witness :
    (∃ e, ingest dZero [] 0 0 [] inpNoGps = Except.error e) ∧
    applyOp initState (Op.ingestOp dZero [] 0 inpNoGps) = initState :=
  ⟨(c5_validation_exact dZero [] 0 0 [] inpNoGps).1.mpr (Or.inr (Or.inr (Or.inl rfl))),
   (c5_validation_exact dZero [] 0 0 [] inpNoGps).2 initState rfl rfl
     ((c5_validation_exact dZero [] 0 0 [] inpNoGps).1.mpr (Or.inr (Or.inr (Or.inl rfl))))⟩

theorem c5_counterexample :
    ingest dZero [] 0 0 [] inpNoGps = Except.error IngestError.missingGps := by
  decide

theorem pickEarliest_eq_none {l : List Report} : pickEarliest l = none ↔ l = [] := by
  cases l with
  | nil => simp [pickEarliest]
  | cons r rs =>
    cases hh : pickEarliest rs with
    | none =>
      simp only [pickEarliest, hh]
      constructor
      · intro h; exact Option.noConfusion h
      · intro h; exact List.noConfusion h
    | some b =>
      simp only [pickEarliest, hh]
      constructor
      · intro h
        split at h <;> exact Option.noConfusion h
      · intro h
        exact List.noConfusion h

theorem pickEarliest_mem : ∀ {l : List Report} {m : Report}, pickEarliest l = some m → m ∈ l := by
  intro l
  induction l with
  | nil => intro m h; exact Option.noConfusion h
  | cons r rs ih =>
    intro m h
    cases hh : pickEarliest rs with
    | none =>
      simp only [pickEarliest, hh, Option.some_inj] at h
      exact h ▸ List.mem_cons_self r rs
    | some b =>
      simp only [pickEarliest, hh] at h
      split at h
      · rw [Option.some_inj] at h
        exact List.mem_cons_of_mem r (h ▸ ih hh)
      · rw [Option.some_inj] at h
        exact h ▸ List.mem_cons_self r rs

theorem pickEarliest_min : ∀ {l : List Report} {m : Report}, pickEarliest l = some m →
    ∀ c ∈ l, m.createdAt ≤ c.createdAt := by
  intro l
  induction l with
  | nil => intro m h; exact Option.noConfusion h
  | cons r rs ih =>
    intro m h c hc
    cases hh : pickEarliest rs with
    | none =>
      simp only [pickEarliest, hh, Option.some_inj] at h
      have hnil : rs = [] := pickEarliest_eq_none.mp hh
      subst hnil
      rcases List.mem_cons.mp hc with hc | hc
      · subst h; subst hc; exact le_refl _
      · exact absurd hc (List.not_mem_nil c)
    | some b =>
      simp only [pickEarliest, hh] at h
      rcases List.mem_cons.mp hc with hc | hc
      · subst hc
        split at h
        · rw [Option.some_inj] at h
          subst h
          rename_i hlt
          exact le_of_lt hlt
        · rw [Option.some_inj] at h
          subst h
          exact le_refl _
      · split at h
        · rw [Option.some_inj] at h
          subst h
          exact ih hh c hc
        · rw [Option.some_inj] at h
          subst h
          rename_i hnlt
          push_neg at hnlt
          exact le_trans hnlt (ih hh c hc)

/-- C2 (amended): on a valid submission, if no root of the same category
within 50 m exists, a new SUBMITTED root with supporter count 1 is appended;
if candidates exist, the first-stored earliest-created candidate `m` becomes
the parent: a MERGED child pointing at `m` is appended and every row with
id `m.id` gains exactly one supporter.  Ties in creation time are resolved
by physical storage order, not by id. -/
theorem c2_dedup_merge
    (dist : Coord → Coord → ℤ) (wards : List Ward) (now : ℤ) (nextId : ℕ)
    (db : List Report) (inp : SubmitInput) (lat lon : ℤ)
    (hc : strFalsy inp.category = false) (hd : strFalsy inp.description = false)
    (hLat : inp.gpsLat = some lat) (hLon : inp.gpsLon = some lon)
    (hfresh : nextId ∉ db.map Report.id) :
    (db.filter (dedupCandidate dist ⟨lat, lon⟩ (inp.category.getD "")) = [] →
       ∃ db2 root, ingest dist wards now nextId db inp =
           Except.ok (db2, ⟨nextId, false, none, 1⟩) ∧
         db2.length = db.length + 1 ∧ (∀ j : ℕ, j < db.length → db2[j]? = db[j]?) ∧
         db2[db.length]? = some root ∧ root.id = nextId ∧ root.state = RState.SUBMITTED ∧
         root.supporterCount = 1 ∧ root.parentReportId = none) ∧
    (∀ m, pickEarliest (db.filter (dedupCandidate dist ⟨lat, lon⟩ (inp.category.getD ""))) =
        some m →
       ∃ db2 child, ingest dist wards now nextId db inp =
           Except.ok (db2, ⟨nextId, true, some m.id, m.supporterCount + 1⟩) ∧
         m ∈ db ∧ dedupCandidate dist ⟨lat, lon⟩ (inp.category.getD "") m = true ∧
         (∀ c ∈ db, dedupCandidate dist ⟨lat, lon⟩ (inp.category.getD "") c = true →
            m.createdAt ≤ c.createdAt) ∧
         db2.length = db.length + 1 ∧
         db2[db.length]? = some child ∧ child.id = nextId ∧ child.state = RState.MERGED ∧
         child.parentReportId = some m.id ∧ child.supporterCount = 1 ∧
         (∀ j : ℕ, j < db.length → ∀ r, db[j]? = some r →
            db2[j]? = some (if r.id = m.id then
              update_emergency_flag { r with supporterCount := r.supporterCount + 1 }
            else r))) := by
  have hv2 : (strFalsy inp.category || strFalsy inp.description) = false := by
    rw [hc, hd]
    rfl
  constructor
  · intro hfilter
    have hpick : pickEarliest (db.filter
        (dedupCandidate dist ⟨lat, lon⟩ (inp.category.getD ""))) = none := by
      rw [hfilter]
      rfl
    refine ⟨insertReport db (baseRow nextId now inp ⟨lat, lon⟩
        (wards.find? (fun w => w.containsPt ⟨lat, lon⟩))),
      update_emergency_flag (baseRow nextId now inp ⟨lat, lon⟩
        (wards.find? (fun w => w.containsPt ⟨lat, lon⟩))), ?_, ?_, ?_, ?_, ?_, ?_, ?_, ?_⟩
    · simp only [ingest, hv2, Bool.false_eq_true, if_false, hLat, hLon, hpick]
    · simp [insertReport]
    · intro j hj
      simp only [insertReport]
      exact List.getElem?_append_left hj
    · simp [insertReport]
    · simp [uef_eq, baseRow]
    · simp [uef_eq, baseRow]
    · simp [uef_eq, baseRow]
    · simp [uef_eq, baseRow]
  · intro m hpick
    have hmemf := pickEarliest_mem hpick
    have hmem : m ∈ db := List.mem_of_mem_filter hmemf
    have hcand : dedupCandidate dist ⟨lat, lon⟩ (inp.category.getD "") m = true :=
      List.of_mem_filter hmemf
    have hmid : m.id ≠ nextId := by
      intro he
      exact hfresh (he ▸ List.mem_map_of_mem Report.id hmem)
    set child := { baseRow nextId now inp ⟨lat, lon⟩
        (wards.find? (fun w => w.containsPt ⟨lat, lon⟩)) with
          parentReportId := some m.id
          state := RState.MERGED
          status := "merged" } with hchild
    have hchildid : (update_emergency_flag child).id = nextId := by
      simp [uef_eq, hchild, baseRow]
    refine ⟨updateById m.id (fun r => { r with supporterCount := r.supporterCount + 1 })
        (insertReport db child),
      update_emergency_flag child, ?_, hmem, hcand, ?_, ?_, ?_, hchildid, ?_, ?_, ?_, ?_⟩
    · simp only [ingest, hv2, Bool.false_eq_true, if_false, hLat, hLon, hpick]
    · intro c hcdb hccand
      exact pickEarliest_min hpick c (List.mem_filter.mpr ⟨hcdb, hccand⟩)
    · simp [updateById, insertReport]
    · have hlast : (insertReport db child)[db.length]? = some (update_emergency_flag child) := by
        simp [insertReport]
      simp only [updateById, List.getElem?_map, hlast, Option.map_some']
      rw [if_neg]
      rw [hchildid]
      exact fun he => hmid he.symm
    · simp [uef_eq, hchild, baseRow]
    · simp [uef_eq, hchild]
    · simp [uef_eq, hchild, baseRow]
    · intro j hj r hr
      have hpre : (insertReport db child)[j]? = some r := by
        simp only [insertReport]
        rw [List.getElem?_append_left hj]
        exact hr
      simp only [updateById, List.getElem?_map, hpre, Option.map_some']

theorem c2_witness :
    ∃ db2 child, ingest dZero [] 5 2 [rIn 1 RState.SUBMITTED] inpOrigin =
        Except.ok (db2, ⟨2, true, some 1, 2⟩) ∧
      rIn 1 RState.SUBMITTED ∈ [rIn 1 RState.SUBMITTED] ∧
      dedupCandidate dZero ⟨0, 0⟩ ((inpOrigin.category).getD "") (rIn 1 RState.SUBMITTED) = true ∧
      (∀ c ∈ [rIn 1 RState.SUBMITTED],
         dedupCandidate dZero ⟨0, 0⟩ ((inpOrigin.category).getD "") c = true →
         (rIn 1 RState.SUBMITTED).createdAt ≤ c.createdAt) ∧
      db2.length = 2 ∧
      db2[1]? = some child ∧ child.id = 2 ∧ child.state = RState.MERGED ∧
      child.parentReportId = some 1 ∧ child.supporterCount = 1 ∧
      (∀ j : ℕ, j < 1 → ∀ r, ([rIn 1 RState.SUBMITTED] : List Report)[j]? = some r →
         db2[j]? = some (if r.id = 1 then
           update_emergency_flag { r with supporterCount := r.supporterCount + 1 }
         else r)) :=
  (c2_dedup_merge dZero [] 5 2 [rIn 1 RState.SUBMITTED] inpOrigin 0 0
    (by decide) (by decide) rfl rfl (by decide)).2 (rIn 1 RState.SUBMITTED) (by decide)

theorem c2_counterexample :
    (ingest dZero [] 5 7 dbTie inpOrigin).toOption.map (fun p => p.2.parentReportId) =
      some (some 2) ∧
    (specTieBreakPick (dbTie.filter (dedupCandidate dZero ⟨0, 0⟩ "pothole"))).map Report.id =
      some 1 ∧
    (rIn 2 RState.SUBMITTED).createdAt = (rIn 1 RState.SUBMITTED).createdAt :=
  ⟨by decide, by decide, by decide⟩

theorem uef_state (r : Report) : (update_emergency_flag r).state = r.state := by
  simp [uef_eq]

theorem applySel_nil (wards : List Ward) (now : ℤ) (x : Report) :
    applySel wards now [] x = x := rfl

theorem applySel_cons (wards : List Ward) (now : ℤ) (r : Report) (rs : List Report) (x : Report) :
    applySel wards now (r :: rs) x =
      applySel wards now rs
        (if x.id = r.id then
          update_emergency_flag (autoAssignUpdate now (wardEmailOf wards r) x)
        else x) := rfl

theorem autoStep2_eq_map (wards : List Ward) (now : ℤ) (db : List Report) :
    autoStep2 wards now db =
      db.map (applySel wards now (db.filter (autoAssignPred now))) := by
  unfold autoStep2
  generalize db.filter (autoAssignPred now) = sel
  induction sel generalizing db with
  | nil =>
    rw [show applySel wards now [] = fun x => x from rfl]
    simp
  | cons r rs ih =>
    rw [List.foldl_cons]
    rw [ih (updateById r.id (autoAssignUpdate now (wardEmailOf wards r)) db)]
    unfold updateById
    rw [List.map_map]
    apply List.map_congr_left
    intro x hx
    rw [Function.comp_apply, applySel_cons]

theorem applySel_id (wards : List Ward) (now : ℤ) (sel : List Report) (x : Report) :
    (applySel wards now sel x).id = x.id := by
  induction sel generalizing x with
  | nil => rfl
  | cons r rs ih =>
    rw [applySel_cons]
    split
    · rw [ih]
      simp [uef_eq, autoAssignUpdate]
    · exact ih x

theorem applySel_parent (wards : List Ward) (now : ℤ) (sel : List Report) (x : Report) :
    (applySel wards now sel x).parentReportId = x.parentReportId := by
  induction sel generalizing x with
  | nil => rfl
  | cons r rs ih =>
    rw [applySel_cons]
    split
    · rw [ih]
      simp [uef_eq, autoAssignUpdate]
    · exact ih x

theorem applySel_createdAt (wards : List Ward) (now : ℤ) (sel : List Report) (x : Report) :
    (applySel wards now sel x).createdAt = x.createdAt := by
  induction sel generalizing x with
  | nil => rfl
  | cons r rs ih =>
    rw [applySel_cons]
    split
    · rw [ih]
      simp [uef_eq, autoAssignUpdate]
    · exact ih x

theorem applySel_verifiedAt (wards : List Ward) (now : ℤ) (sel : List Report) (x : Report) :
    (applySel wards now sel x).verifiedAt = x.verifiedAt := by
  induction sel generalizing x with
  | nil => rfl
  | cons r rs ih =>
    rw [applySel_cons]
    split
    · rw [ih]
      simp [uef_eq, autoAssignUpdate]
    · exact ih x

theorem applySel_slaLevel (wards : List Ward) (now : ℤ) (sel : List Report) (x : Report) :
    x.slaLevel ≤ (applySel wards now sel x).slaLevel := by
  induction sel generalizing x with
  | nil => exact le_refl _
  | cons r rs ih =>
    rw [applySel_cons]
    split
    · refine le_trans ?_ (ih _)
      simp [uef_eq, autoAssignUpdate]
    · exact ih x

theorem applySel_assigned_stable (wards : List Ward) (now : ℤ) (sel : List Report) (x : Report)
    (hs : x.state = RState.ASSIGNED) (ha : x.assignedAt = some now) :
    (applySel wards now sel x).state = RState.ASSIGNED ∧
    (applySel wards now sel x).assignedAt = some now := by
  induction sel generalizing x with
  | nil => exact ⟨hs, ha⟩
  | cons r rs ih =>
    rw [applySel_cons]
    split
    · exact ih _ (by simp [uef_eq, autoAssignUpdate]) (by simp [uef_eq, autoAssignUpdate])
    · exact ih x hs ha

theorem applySel_keep_or_assigned (wards : List Ward) (now : ℤ) (sel : List Report) (x : Report) :
    applySel wards now sel x = x ∨
    ((applySel wards now sel x).state = RState.ASSIGNED ∧
     (applySel wards now sel x).assignedAt = some now) := by
  induction sel generalizing x with
  | nil => exact Or.inl rfl
  | cons r rs ih =>
    rw [applySel_cons]
    split
    · exact Or.inr (applySel_assigned_stable wards now rs _
        (by simp [uef_eq, autoAssignUpdate]) (by simp [uef_eq, autoAssignUpdate]))
    · exact ih x

theorem applySel_mem_assigned (wards : List Ward) (now : ℤ) (sel : List Report) (x : Report)
    (hmem : x.id ∈ sel.map Report.id) :
    (applySel wards now sel x).state = RState.ASSIGNED ∧
    (applySel wards now sel x).assignedAt = some now := by
  induction sel generalizing x with
  | nil => exact absurd hmem (List.not_mem_nil _)
  | cons r rs ih =>
    rw [applySel_cons]
    by_cases hid : x.id = r.id
    · rw [if_pos hid]
      exact applySel_assigned_stable wards now rs _
        (by simp [uef_eq, autoAssignUpdate]) (by simp [uef_eq, autoAssignUpdate])
    · rw [if_neg hid]
      apply ih x
      rcases List.mem_map.mp hmem with ⟨a, ha, hae⟩
      rcases List.mem_cons.mp ha with ha | ha
      · subst ha
        exact absurd hae.symm hid
      · exact List.mem_map.mpr ⟨a, ha, hae⟩

theorem map_if_id {p : Report → Bool} {g : Report → Report} :
    ∀ {l : List Report}, (∀ x ∈ l, p x = false) →
      l.map (fun x => if p x then g x else x) = l := by
  intro l h
  induction l with
  | nil => rfl
  | cons a as ih =>
    rw [List.map_cons]
    rw [if_neg (by simp [h a (List.mem_cons_self a as)])]
    rw [ih (fun x hx => h x (List.mem_cons_of_mem a hx))]

theorem autoVerifyPred_e3 (now : ℤ) (w : Report) :
    autoVerifyPred now
      (if autoUrgentPred now w then update_emergency_flag (autoUrgentUpdate now w) else w) =
    autoVerifyPred now w := by
  split
  · simp [autoVerifyPred, uef_eq, autoUrgentUpdate]
  · rfl

theorem autoAssignPred_e3 (now : ℤ) (w : Report) :
    autoAssignPred now
      (if autoUrgentPred now w then update_emergency_flag (autoUrgentUpdate now w) else w) =
    autoAssignPred now w := by
  split
  · simp [autoAssignPred, uef_eq, autoUrgentUpdate]
  · rfl

theorem autoVerifyPred_after (wards : List Ward) (now : ℤ) (db : List Report) :
    ∀ x ∈ runAutoPromotion wards now db, autoVerifyPred now x = false := by
  intro x hx
  unfold runAutoPromotion autoStep3 at hx
  rcases List.mem_map.mp hx with ⟨w, hw, hxe⟩
  subst hxe
  simp only [autoVerifyPred_e3]
  rw [autoStep2_eq_map] at hw
  rcases List.mem_map.mp hw with ⟨z, hz, hwe⟩
  subst hwe
  rcases applySel_keep_or_assigned wards now _ z with hk | ⟨hs, _⟩
  · rw [hk]
    unfold autoStep1 at hz
    rcases List.mem_map.mp hz with ⟨y, hy, hze⟩
    by_cases hp1 : autoVerifyPred now y
    · rw [if_pos hp1] at hze
      subst hze
      simp [autoVerifyPred, uef_eq, autoVerifyUpdate]
    · rw [if_neg hp1] at hze
      subst hze
      exact Bool.of_not_eq_true hp1
  · simp [autoVerifyPred, hs]

theorem autoAssignPred_after (wards : List Ward) (now : ℤ) (db : List Report) :
    ∀ x ∈ runAutoPromotion wards now db, autoAssignPred now x = false := by
  intro x hx
  unfold runAutoPromotion autoStep3 at hx
  rcases List.mem_map.mp hx with ⟨w, hw, hxe⟩
  subst hxe
  simp only [autoAssignPred_e3]
  rw [autoStep2_eq_map] at hw
  rcases List.mem_map.mp hw with ⟨z, hz, hwe⟩
  subst hwe
  rcases applySel_keep_or_assigned wards now _ z with hk | ⟨hs, _⟩
  · rw [hk]
    unfold autoStep1 at hz
    rcases List.mem_map.mp hz with ⟨y, hy, hze⟩
    by_cases hp1 : autoVerifyPred now y
    · rw [if_pos hp1] at hze
      subst hze
      have hno : ¬ ((now : ℤ) < now - 72) := by omega
      simp [autoAssignPred, uef_eq, autoVerifyUpdate, hno]
    · rw [if_neg hp1] at hze
      subst hze
      by_cases hp2 : autoAssignPred now y
      · exfalso
        have hymem : y ∈ (autoStep1 now db).filter (autoAssignPred now) :=
          List.mem_filter.mpr ⟨hz, hp2⟩
        have hidmem : y.id ∈ ((autoStep1 now db).filter (autoAssignPred now)).map Report.id :=
          List.mem_map_of_mem Report.id hymem
        have hassigned := (applySel_mem_assigned wards now _ y hidmem).1
        rw [hk] at hassigned
        have hver : y.state = RState.VERIFIED := by
          simp [autoAssignPred] at hp2
          exact hp2.1.1
        rw [hver] at hassigned
        exact RState.noConfusion hassigned
      · exact Bool.of_not_eq_true hp2
  · simp [autoAssignPred, hs]

theorem autoUrgentPred_after (wards : List Ward) (now : ℤ) (db : List Report) :
    ∀ x ∈ runAutoPromotion wards now db, autoUrgentPred now x = false := by
  intro x hx
  unfold runAutoPromotion autoStep3 at hx
  rcases List.mem_map.mp hx with ⟨w, hw, hxe⟩
  subst hxe
  by_cases hp3 : autoUrgentPred now w
  · rw [if_pos hp3]
    have h2 : ¬ ((update_emergency_flag (autoUrgentUpdate now w)).slaLevel < 2) := by
      simp [uef_eq, autoUrgentUpdate]
    unfold autoUrgentPred
    simp [h2]
  · rw [if_neg hp3]
    exact Bool.of_not_eq_true hp3

/-- C8: one immediate re-run of the auto-promotion sweep at the same clock
reading changes nothing: every predicate re-checks state and timestamps, and
each phase of the first run leaves the touched rows outside all three
selections. -/
theorem c8_auto_promotion_idempotent (wards : List Ward) (now : ℤ) (db : List Report) :
    runAutoPromotion wards now (runAutoPromotion wards now db) =
      runAutoPromotion wards now db := by
  have h1 : autoStep1 now (runAutoPromotion wards now db) = runAutoPromotion wards now db := by
    unfold autoStep1
    exact map_if_id (autoVerifyPred_after wards now db)
  have h2 : autoStep2 wards now (runAutoPromotion wards now db) =
      runAutoPromotion wards now db := by
    unfold autoStep2
    rw [List.filter_eq_nil_iff.mpr (fun x hx => by
      simp [autoAssignPred_after wards now db x hx])]
    rfl
  have h3 : autoStep3 now (runAutoPromotion wards now db) = runAutoPromotion wards now db := by
    unfold autoStep3
    exact map_if_id (autoUrgentPred_after wards now db)
  calc runAutoPromotion wards now (runAutoPromotion wards now db)
      = autoStep3 now (autoStep2 wards now (autoStep1 now
          (runAutoPromotion wards now db))) := rfl
    _ = runAutoPromotion wards now db := by rw [h1, h2, h3]

theorem insertByAssigned_perm (r : EscRow) (l : List EscRow) :
    List.Perm (insertByAssigned r l) (r :: l) := by
  induction l with
  | nil => exact List.Perm.refl _
  | cons b bs ih =>
    unfold insertByAssigned
    split
    · exact (ih.cons b).trans (List.Perm.swap r b bs)
    · exact List.Perm.refl _

theorem sortByAssigned_perm (l : List EscRow) : List.Perm (sortByAssigned l) l := by
  induction l with
  | nil => exact List.Perm.refl _
  | cons r rs ih =>
    exact (insertByAssigned_perm r (sortByAssigned rs)).trans (ih.cons r)

theorem updateById_ids (i : ℕ) (f : Report → Report) (db : List Report)
    (hf : ∀ r, (f r).id = r.id) :
    (updateById i f db).map Report.id = db.map Report.id := by
  unfold updateById
  rw [List.map_map]
  apply List.map_congr_left
  intro x _
  rw [Function.comp_apply]
  split
  · rw [show (update_emergency_flag (f x)).id = (f x).id by simp [uef_eq], hf x]
  · rfl

theorem escalateReport_error_state (env : DispatchEnv) (now : ℤ)
    (st : List Report × List LogEntry) (row : EscRow) (st2 : List Report × List LogEntry)
    (h : escalateReport env now st row = Except.ok st2) :
    st2 = st ∨
    (row.slaLevel < targetLevelOf now row.assignedAt ∧
     st2.1 = updateById row.id
       (fun r => { r with slaLevel := targetLevelOf now row.assignedAt,
                          lastEscalatedAt := some now }) st.1) := by
  simp only [escalateReport] at h
  by_cases h0 : targetLevelOf now row.assignedAt = 0
  · rw [if_pos h0] at h
    left
    injection h with h
    exact h.symm
  · rw [if_neg h0] at h
    by_cases hle : targetLevelOf now row.assignedAt ≤ row.slaLevel
    · rw [if_pos hle] at h
      left
      injection h with h
      exact h.symm
    · rw [if_neg hle] at h
      by_cases hfail : env.updateFails row.id = true
      · rw [if_pos hfail] at h
        exact Except.noConfusion h
      · rw [if_neg hfail] at h
        right
        injection h with h
        exact ⟨by omega, congrArg Prod.fst h.symm⟩

theorem processEsc_sla_mono (env : DispatchEnv) (now : ℤ) :
    ∀ (rows : List EscRow) (st : List Report × List LogEntry),
      (∀ row ∈ rows, ∀ r ∈ st.1, r.id = row.id → r.slaLevel = row.slaLevel) →
      (rows.map EscRow.id).Nodup →
      ∀ (j : ℕ) (r r1 : Report), st.1[j]? = some r →
        (processEsc env now rows st).1[j]? = some r1 → r.slaLevel ≤ r1.slaLevel := by
  intro rows
  induction rows with
  | nil =>
    intro st hsync hnd j r r1 h1 h2
    unfold processEsc at h2
    rw [h1] at h2
    injection h2 with h2
    exact h2 ▸ le_refl _
  | cons row rest ih =>
    intro st hsync hnd j r r1 h1 h2
    unfold processEsc at h2
    cases hesc : escalateReport env now st row with
    | error e =>
      rw [hesc] at h2
      rw [h1] at h2
      injection h2 with h2
      exact h2 ▸ le_refl _
    | ok st2 =>
      rw [hesc] at h2
      rcases escalateReport_error_state env now st row st2 hesc with hsame | ⟨hlt, hupd⟩
      · subst hsame
        exact ih st2 (fun rw2 hrw2 => hsync rw2 (List.mem_cons_of_mem row hrw2))
          (List.Nodup.of_cons hnd) j r r1 h1 h2
      · have hmid : st2.1[j]? = some (if r.id = row.id then
            update_emergency_flag { r with slaLevel := targetLevelOf now row.assignedAt,
                                           lastEscalatedAt := some now } else r) := by
          rw [hupd]
          unfold updateById
          rw [List.getElem?_map, h1, Option.map_some']
        have hrm : r ∈ st.1 := by
          have := List.getElem?_eq_some.mp h1
          rcases this with ⟨hjlt, hje⟩
          exact hje ▸ List.getElem_mem hjlt
        have hstep : r.slaLevel ≤ (if r.id = row.id then
            update_emergency_flag { r with slaLevel := targetLevelOf now row.assignedAt,
                                           lastEscalatedAt := some now } else r).slaLevel := by
          split
          · rename_i hid
            have hsla : r.slaLevel = row.slaLevel := hsync row (List.mem_cons_self row rest) r hrm hid
            simp [uef_eq]
            omega
          · exact le_refl _
        have hsync2 : ∀ rw2 ∈ rest, ∀ r2 ∈ st2.1, r2.id = rw2.id →
            r2.slaLevel = rw2.slaLevel := by
          intro rw2 hrw2 r2 hr2 hid2
          rw [hupd] at hr2
          unfold updateById at hr2
          rcases List.mem_map.mp hr2 with ⟨rr, hrr, hrre⟩
          by_cases hrid : rr.id = row.id
          · exfalso
            rw [if_pos hrid] at hrre
            have : r2.id = row.id := by
              rw [← hrre]
              simp [uef_eq, hrid]
            have hbad : row.id ∈ rest.map EscRow.id := by
              rw [← this, hid2]
              exact List.mem_map_of_mem EscRow.id hrw2
            rw [List.map_cons] at hnd
            exact (List.nodup_cons.mp hnd).1 hbad
          · rw [if_neg hrid] at hrre
            exact hrre ▸ hsync rw2 (List.mem_cons_of_mem row hrw2) rr hrr (hrre ▸ hid2)
        exact le_trans hstep
          (ih st2 hsync2 (List.Nodup.of_cons hnd) j _ r1 hmid h2)

theorem escRowOf_id (wards : List Ward) (r : Report) : (escRowOf wards r).id = r.id := rfl

theorem id_inj_of_nodup {db : List Report} (hnd : (db.map Report.id).Nodup)
    {a b : Report} (ha : a ∈ db) (hb : b ∈ db) (hid : a.id = b.id) : a = b :=
  List.inj_on_of_nodup_map hnd ha hb hid

theorem runEscalationCheck_rows_sync (env : DispatchEnv) (wards : List Ward) (now : ℤ)
    (db : List Report) (hnd : (db.map Report.id).Nodup) :
    ∀ row ∈ sortByAssigned ((db.filter (escCandidatePred now)).map (escRowOf wards)),
      ∀ r ∈ db, r.id = row.id → r.slaLevel = row.slaLevel := by
  intro row hrow r hr hid
  have hrow2 : row ∈ (db.filter (escCandidatePred now)).map (escRowOf wards) :=
    (sortByAssigned_perm _).mem_iff.mp hrow
  rcases List.mem_map.mp hrow2 with ⟨c, hc, hce⟩
  have hcdb : c ∈ db := List.mem_of_mem_filter hc
  have hcid : c.id = row.id := by rw [← hce]; rfl
  have : r = c := id_inj_of_nodup hnd hr hcdb (hid.trans hcid.symm)
  rw [this, ← hce]
  rfl

theorem runEscalationCheck_rows_nodup (env : DispatchEnv) (wards : List Ward) (now : ℤ)
    (db : List Report) (hnd : (db.map Report.id).Nodup) :
    ((sortByAssigned ((db.filter (escCandidatePred now)).map (escRowOf wards))).map
      EscRow.id).Nodup := by
  have hperm : List.Perm
      ((sortByAssigned ((db.filter (escCandidatePred now)).map (escRowOf wards))).map EscRow.id)
      (((db.filter (escCandidatePred now)).map (escRowOf wards)).map EscRow.id) :=
    (sortByAssigned_perm _).map EscRow.id
  have heq : ((db.filter (escCandidatePred now)).map (escRowOf wards)).map EscRow.id =
      (db.filter (escCandidatePred now)).map Report.id := by
    rw [List.map_map]
    apply List.map_congr_left
    intro x _
    rfl
  have hsub : List.Sublist ((db.filter (escCandidatePred now)).map Report.id)
      (db.map Report.id) := (List.filter_sublist db).map Report.id
  exact hperm.nodup_iff.mpr (heq ▸ hsub.nodup hnd)

theorem runEscalationCheck_sla_mono (env : DispatchEnv) (wards : List Ward) (now : ℤ)
    (db : List Report) (logs : List LogEntry) (hnd : (db.map Report.id).Nodup) :
    ∀ (j : ℕ) (r r1 : Report), db[j]? = some r →
      (runEscalationCheck env wards now db logs).1[j]? = some r1 →
      r.slaLevel ≤ r1.slaLevel := by
  intro j r r1 h1 h2
  exact processEsc_sla_mono env now _ (db, logs)
    (runEscalationCheck_rows_sync env wards now db hnd)
    (runEscalationCheck_rows_nodup env wards now db hnd) j r r1 h1 h2

theorem processEsc_ids (env : DispatchEnv) (now : ℤ) :
    ∀ (rows : List EscRow) (st : List Report × List LogEntry),
      (processEsc env now rows st).1.map Report.id = st.1.map Report.id := by
  intro rows
  induction rows with
  | nil => intro st; rfl
  | cons row rest ih =>
    intro st
    unfold processEsc
    cases hesc : escalateReport env now st row with
    | error e => rfl
    | ok st2 =>
      rw [ih st2]
      rcases escalateReport_error_state env now st row st2 hesc with hsame | ⟨_, hupd⟩
      · rw [hsame]
      · rw [hupd]
        exact updateById_ids _ _ _ (fun r => rfl)

theorem runEscalationCheck_ids (env : DispatchEnv) (wards : List Ward) (now : ℤ)
    (db : List Report) (logs : List LogEntry) :
    (runEscalationCheck env wards now db logs).1.map Report.id = db.map Report.id :=
  processEsc_ids env now _ (db, logs)

theorem map_ids_of_pointwise {f : Report → Report} (hf : ∀ x, (f x).id = x.id)
    (l : List Report) : (l.map f).map Report.id = l.map Report.id := by
  rw [List.map_map]
  apply List.map_congr_left
  intro x _
  exact hf x

theorem runAutoPromotion_ids (wards : List Ward) (now : ℤ) (db : List Report) :
    (runAutoPromotion wards now db).map Report.id = db.map Report.id := by
  unfold runAutoPromotion
  rw [show autoStep3 now (autoStep2 wards now (autoStep1 now db)) =
      (autoStep2 wards now (autoStep1 now db)).map
        (fun r => if autoUrgentPred now r then
          update_emergency_flag (autoUrgentUpdate now r) else r) from rfl]
  rw [map_ids_of_pointwise (fun x => by
    split
    · simp [uef_eq, autoUrgentUpdate]
    · rfl)]
  rw [autoStep2_eq_map]
  rw [map_ids_of_pointwise (applySel_id wards now _)]
  rw [show autoStep1 now db = db.map
      (fun r => if autoVerifyPred now r then
        update_emergency_flag (autoVerifyUpdate now r) else r) from rfl]
  rw [map_ids_of_pointwise (fun x => by
    split
    · simp [uef_eq, autoVerifyUpdate]
    · rfl)]

theorem runAutoPromotion_sla_mono (wards : List Ward) (now : ℤ) (db : List Report) :
    ∀ (j : ℕ) (r r1 : Report), db[j]? = some r →
      (runAutoPromotion wards now db)[j]? = some r1 → r.slaLevel ≤ r1.slaLevel := by
  intro j r r1 h1 h2
  have hs1 : (autoStep1 now db)[j]? = some (if autoVerifyPred now r then
      update_emergency_flag (autoVerifyUpdate now r) else r) := by
    unfold autoStep1
    rw [List.getElem?_map, h1, Option.map_some']
  have hs2 : (autoStep2 wards now (autoStep1 now db))[j]? =
      some (applySel wards now ((autoStep1 now db).filter (autoAssignPred now))
        (if autoVerifyPred now r then update_emergency_flag (autoVerifyUpdate now r) else r)) := by
    rw [autoStep2_eq_map, List.getElem?_map, hs1, Option.map_some']
  have hfin : (runAutoPromotion wards now db)[j]? = some (
      (fun w => if autoUrgentPred now w then
        update_emergency_flag (autoUrgentUpdate now w) else w)
      (applySel wards now ((autoStep1 now db).filter (autoAssignPred now))
        (if autoVerifyPred now r then update_emergency_flag (autoVerifyUpdate now r) else r))) := by
    unfold runAutoPromotion autoStep3
    rw [List.getElem?_map, hs2, Option.map_some']
  rw [hfin] at h2
  injection h2 with h2
  subst h2
  have e1le : r.slaLevel ≤ (if autoVerifyPred now r then
      update_emergency_flag (autoVerifyUpdate now r) else r).slaLevel := by
    split
    · simp [uef_eq, autoVerifyUpdate]
    · exact le_refl _
  have e2le := applySel_slaLevel wards now
    ((autoStep1 now db).filter (autoAssignPred now))
    (if autoVerifyPred now r then update_emergency_flag (autoVerifyUpdate now r) else r)
  have e3le : ∀ w : Report, w.slaLevel ≤ (if autoUrgentPred now w then
      update_emergency_flag (autoUrgentUpdate now w) else w).slaLevel := by
    intro w
    split
    · simp [uef_eq, autoUrgentUpdate]
    · exact le_refl _
  exact le_trans e1le (le_trans e2le (e3le _))

theorem exists_getElem_of_ids {l1 l2 : List Report}
    (h : l2.map Report.id = l1.map Report.id) (j : ℕ) (r : Report) (hj : l1[j]? = some r) :
    ∃ r2, l2[j]? = some r2 := by
  have hl : l2.length = l1.length := by
    have := congrArg List.length h
    simpa using this
  have hjlt : j < l1.length := (List.getElem?_eq_some.mp hj).1
  have hjlt2 : j < l2.length := hl ▸ hjlt
  exact ⟨l2.get ⟨j, hjlt2⟩, by simp [List.getElem?_eq_getElem hjlt2]⟩

theorem applySweeps_ids (runs : List SweepRun) (st : List Report × List LogEntry) :
    (applySweeps runs st).1.map Report.id = st.1.map Report.id := by
  induction runs generalizing st with
  | nil => rfl
  | cons run rest ih =>
    have hstep : (applySweep st run).1.map Report.id = st.1.map Report.id := by
      cases run with
      | auto wards now => exact runAutoPromotion_ids wards now st.1
      | esc env wards now => exact runEscalationCheck_ids env wards now st.1 st.2
    calc (applySweeps (run :: rest) st).1.map Report.id
        = (applySweeps rest (applySweep st run)).1.map Report.id := rfl
      _ = (applySweep st run).1.map Report.id := ih _
      _ = st.1.map Report.id := hstep

/-- C4: over any interleaving of auto-promotion and escalation sweep runs,
the stored sla tier of every report never decreases. -/
theorem c4_sla_tier_monotone (runs : List SweepRun) (db : List Report) (logs : List LogEntry)
    (hnd : (db.map Report.id).Nodup) :
    ∀ (j : ℕ) (r r1 : Report), db[j]? = some r →
      (applySweeps runs (db, logs)).1[j]? = some r1 → r.slaLevel ≤ r1.slaLevel := by
  induction runs generalizing db logs with
  | nil =>
    intro j r r1 h1 h2
    unfold applySweeps at h2
    rw [List.foldl_nil] at h2
    rw [h1] at h2
    injection h2 with h2
    exact h2 ▸ le_refl _
  | cons run rest ih =>
    intro j r r1 h1 h2
    have hstep : (applySweep (db, logs) run).1.map Report.id = db.map Report.id := by
      cases run with
      | auto wards now => exact runAutoPromotion_ids wards now db
      | esc env wards now => exact runEscalationCheck_ids env wards now db logs
    rcases exists_getElem_of_ids hstep j r h1 with ⟨rmid, hmid⟩
    have hle1 : r.slaLevel ≤ rmid.slaLevel := by
      cases run with
      | auto wards now => exact runAutoPromotion_sla_mono wards now db j r rmid h1 hmid
      | esc env wards now => exact runEscalationCheck_sla_mono env wards now db logs hnd j r rmid h1 hmid
    have hnd2 : ((applySweep (db, logs) run).1.map Report.id).Nodup := hstep ▸ hnd
    have h2r : (applySweeps rest ((applySweep (db, logs) run).1,
        (applySweep (db, logs) run).2)).1[j]? = some r1 := h2
    exact le_trans hle1 (ih (applySweep (db, logs) run).1 (applySweep (db, logs) run).2 hnd2
      j rmid r1 hmid h2r)

theorem c4_witness :
    (([rAssigned 1 0, rAssigned 2 1].map Report.id).Nodup) ∧
    ∀ (j : ℕ) (r r1 : Report), ([rAssigned 1 0, rAssigned 2 1] : List Report)[j]? = some r →
      (applySweeps [SweepRun.esc envAllOk [] 200, SweepRun.auto [] 200]
        ([rAssigned 1 0, rAssigned 2 1], [])).1[j]? = some r1 →
      r.slaLevel ≤ r1.slaLevel :=
  ⟨by decide, c4_sla_tier_monotone [SweepRun.esc envAllOk [] 200, SweepRun.auto [] 200]
    [rAssigned 1 0, rAssigned 2 1] [] (by decide)⟩

theorem escalateReport_skip (env : DispatchEnv) (now : ℤ)
    (st : List Report × List LogEntry) (row : EscRow)
    (h : targetLevelOf now row.assignedAt = 0 ∨
         targetLevelOf now row.assignedAt ≤ row.slaLevel) :
    escalateReport env now st row = Except.ok st := by
  simp only [escalateReport]
  by_cases h0 : targetLevelOf now row.assignedAt = 0
  · rw [if_pos h0]
  · rw [if_neg h0]
    rcases h with h | h
    · exact absurd h h0
    · rw [if_pos h]

theorem escalateReport_fail (env : DispatchEnv) (now : ℤ)
    (st : List Report × List LogEntry) (row : EscRow)
    (h0 : ¬ targetLevelOf now row.assignedAt = 0)
    (hle : ¬ targetLevelOf now row.assignedAt ≤ row.slaLevel)
    (hfail : env.updateFails row.id = true) :
    escalateReport env now st row = Except.error () := by
  simp only [escalateReport]
  rw [if_neg h0, if_neg hle, if_pos hfail]

theorem escalateReport_commit (env : DispatchEnv) (now : ℤ)
    (st : List Report × List LogEntry) (row : EscRow)
    (h0 : ¬ targetLevelOf now row.assignedAt = 0)
    (hle : ¬ targetLevelOf now row.assignedAt ≤ row.slaLevel)
    (hfail : env.updateFails row.id = false) :
    escalateReport env now st row = Except.ok
      (updateById row.id
        (fun r => { r with
          slaLevel := targetLevelOf now row.assignedAt
          lastEscalatedAt := some now }) st.1,
       st.2 ++ escalateActions env (targetLevelOf now row.assignedAt) row) := by
  simp only [escalateReport]
  rw [if_neg h0, if_neg hle, if_neg (by simp [hfail])]

theorem processEsc_db_dispatch_indep (e1 e2 : DispatchEnv) (now : ℤ)
    (hupd : e1.updateFails = e2.updateFails) :
    ∀ (rows : List EscRow) (db : List Report) (logs1 logs2 : List LogEntry),
      (processEsc e1 now rows (db, logs1)).1 = (processEsc e2 now rows (db, logs2)).1 := by
  intro rows
  induction rows with
  | nil => intro db l1 l2; rfl
  | cons row rest ih =>
    intro db l1 l2
    by_cases hskip : targetLevelOf now row.assignedAt = 0 ∨
        targetLevelOf now row.assignedAt ≤ row.slaLevel
    · unfold processEsc
      rw [escalateReport_skip e1 now (db, l1) row hskip,
          escalateReport_skip e2 now (db, l2) row hskip]
      exact ih db l1 l2
    · push_neg at hskip
      obtain ⟨h0, hle⟩ := hskip
      have hle2 : ¬ targetLevelOf now row.assignedAt ≤ row.slaLevel := by omega
      cases hfail : e1.updateFails row.id with
      | true =>
        unfold processEsc
        rw [escalateReport_fail e1 now (db, l1) row h0 hle2 hfail,
            escalateReport_fail e2 now (db, l2) row h0 hle2 (hupd ▸ hfail)]
      | false =>
        unfold processEsc
        rw [escalateReport_commit e1 now (db, l1) row h0 hle2 hfail,
            escalateReport_commit e2 now (db, l2) row h0 hle2 (hupd ▸ hfail)]
        exact ih _ _ _

theorem escalateActions_all_false (env : DispatchEnv)
    (he : env.emailSuccess = fun _ _ _ => false)
    (hs : env.smsSuccess = fun _ _ _ => false) (target : ℕ) (row : EscRow) :
    ∀ entry ∈ escalateActions env target row, entry.success = false := by
  intro entry hmem
  unfold escalateActions at hmem
  rw [he, hs] at hmem
  by_cases h1 : target = 1
  · rw [if_pos h1, if_neg (by omega : ¬ target = 2), if_neg (by omega : ¬ target = 3)] at hmem
    rw [List.append_nil, List.append_nil] at hmem
    cases hopt : optOr row.wardOfficerEmail row.assignedOfficerEmail <;> rw [hopt] at hmem <;>
      simp only [List.mem_singleton] at hmem <;> rw [hmem]
  · rw [if_neg h1] at hmem
    by_cases h2 : target = 2
    · rw [if_pos h2, if_neg (by omega : ¬ target = 3)] at hmem
      rw [List.append_nil, List.nil_append] at hmem
      rcases List.mem_append.mp hmem with hm | hm
      · cases hopt : optOr row.wardOfficerEmail row.assignedOfficerEmail <;> rw [hopt] at hm
        · exact absurd hm (List.not_mem_nil entry)
        · simp only [List.mem_singleton] at hm
          rw [hm]
      · rcases List.mem_cons.mp hm with hm | hm
        · rw [hm]
        · rcases List.mem_cons.mp hm with hm | hm
          · rw [hm]
          · exact absurd hm (List.not_mem_nil entry)
    · rw [if_neg h2] at hmem
      by_cases h3 : target = 3
      · rw [if_pos h3] at hmem
        rw [List.nil_append, List.nil_append] at hmem
        rcases List.mem_cons.mp hmem with hm | hm
        · rw [hm]
        · cases hphone : env.commPhone <;> rw [hphone] at hm
          · exact absurd hm (List.not_mem_nil entry)
          · simp only [List.mem_singleton] at hm
            rw [hm]
      · rw [if_neg h3] at hmem
        simp at hmem

theorem processEsc_logs_false (env : DispatchEnv) (now : ℤ)
    (he : env.emailSuccess = fun _ _ _ => false)
    (hs : env.smsSuccess = fun _ _ _ => false) :
    ∀ (rows : List EscRow) (st : List Report × List LogEntry),
      ∀ entry ∈ (processEsc env now rows st).2, entry ∈ st.2 ∨ entry.success = false := by
  intro rows
  induction rows with
  | nil => intro st entry hmem; exact Or.inl hmem
  | cons row rest ih =>
    intro st entry hmem
    unfold processEsc at hmem
    cases hesc : escalateReport env now st row with
    | error e =>
      rw [hesc] at hmem
      exact Or.inl hmem
    | ok st2 =>
      rw [hesc] at hmem
      rcases ih st2 entry hmem with hin | hfalse
      · by_cases hskip : targetLevelOf now row.assignedAt = 0 ∨
            targetLevelOf now row.assignedAt ≤ row.slaLevel
        · rw [escalateReport_skip env now st row hskip] at hesc
          injection hesc with hesc
          exact Or.inl (hesc ▸ hin)
        · push_neg at hskip
          obtain ⟨h0, hle⟩ := hskip
          have hle2 : ¬ targetLevelOf now row.assignedAt ≤ row.slaLevel := by omega
          cases hfail : env.updateFails row.id with
          | true =>
            rw [escalateReport_fail env now st row h0 hle2 hfail] at hesc
            exact Except.noConfusion hesc
          | false =>
            rw [escalateReport_commit env now st row h0 hle2 hfail] at hesc
            injection hesc with hesc
            rw [← hesc] at hin
            rcases List.mem_append.mp hin with hin | hin
            · exact Or.inl hin
            · exact Or.inr (escalateActions_all_false env he hs _ row entry hin)
      · exact Or.inr hfalse

/-- C6 (amended): a notification-dispatch failure is invisible to the sweep's
control flow — the resulting report rows are identical whatever the dispatch
outcomes — and every dispatch attempt of a failing dispatcher is recorded in
the escalation log with success false; only a persistence failure aborts the
remainder of the batch. -/
theorem c6_dispatch_failures_isolated :
    (∀ (e1 e2 : DispatchEnv) (wards : List Ward) (now : ℤ)
       (db : List Report) (logs : List LogEntry),
       e1.updateFails = e2.updateFails →
       (runEscalationCheck e1 wards now db logs).1 =
         (runEscalationCheck e2 wards now db logs).1) ∧
    (∀ (env : DispatchEnv) (wards : List Ward) (now : ℤ)
       (db : List Report) (logs : List LogEntry),
       env.emailSuccess = (fun _ _ _ => false) →
       env.smsSuccess = (fun _ _ _ => false) →
       ∀ entry ∈ (runEscalationCheck env wards now db logs).2,
         entry ∈ logs ∨ entry.success = false) := by
  constructor
  · intro e1 e2 wards now db logs hupd
    exact processEsc_db_dispatch_indep e1 e2 now hupd _ db logs logs
  · intro env wards now db logs he hs entry hmem
    exact processEsc_logs_false env now he hs _ (db, logs) entry hmem

theorem c6_witness :
    (runEscalationCheck envAllOk [] 200 [rAssigned 1 0] []).1 =
      (runEscalationCheck envAllDispatchFail [] 200 [rAssigned 1 0] []).1 ∧
    ∀ entry ∈ (runEscalationCheck envAllDispatchFail [] 200 [rAssigned 1 0] []).2,
      entry ∈ ([] : List LogEntry) ∨ entry.success = false :=
  ⟨c6_dispatch_failures_isolated.1 envAllOk envAllDispatchFail [] 200 [rAssigned 1 0] [] rfl,
   c6_dispatch_failures_isolated.2 envAllDispatchFail [] 200 [rAssigned 1 0] [] rfl rfl⟩

theorem c6_counterexample :
    envFailOn1.updateFails 1 = true ∧
    escCandidatePred 200 (rAssigned 2 1) = true ∧
    (runEscalationCheck envFailOn1 [] 200 [rAssigned 1 0, rAssigned 2 1] []).1.map
      Report.slaLevel = [0, 0] ∧
    (runEscalationCheck envAllOk [] 200 [rAssigned 1 0, rAssigned 2 1] []).1.map
      Report.slaLevel = [3, 3] :=
  ⟨by decide, by decide, by decide, by decide⟩

theorem econd_congr {x y : Report} (hsev : y.severity = x.severity)
    (hcnt : y.supporterCount = x.supporterCount) : econd y = econd x := by
  simp [econd, hsev, hcnt]

theorem uef_econd (y : Report) : econd (update_emergency_flag y) = econd y := by
  simp [econd, uef_eq]

theorem flag_mono_step {x y : Report} (hsev : y.severity = x.severity)
    (hcnt : x.supporterCount ≤ y.supporterCount) (hflag : y.isEmergency = x.isEmergency)
    (hx : x.isEmergency = econd x) :
    (update_emergency_flag y).isEmergency = econd (update_emergency_flag y) := by
  rw [uef_econd]
  rw [show (update_emergency_flag y).isEmergency = (econd y || y.isEmergency) by simp [uef_eq]]
  cases hy : econd y with
  | true => rfl
  | false =>
    have hxe : econd x = false := by
      cases hxe : econd x with
      | false => rfl
      | true =>
        exfalso
        simp only [econd, Bool.or_eq_true, decide_eq_true_eq] at hxe
        simp only [econd, Bool.or_eq_false_iff, decide_eq_false_iff_not] at hy
        rcases hxe with h | h
        · exact hy.1 (hsev ▸ h)
        · exact hy.2 (le_trans h hcnt)
    rw [hflag, hx, hxe]
    rfl

theorem mem_getElem? {l : List Report} {a : Report} (h : a ∈ l) :
    ∃ j : ℕ, l[j]? = some a := by
  obtain ⟨j, hj, he⟩ := List.mem_iff_getElem.mp h
  exact ⟨j, by simp [List.getElem?_eq_getElem hj, he]⟩

theorem getElem?_mem {l : List Report} {a : Report} {j : ℕ} (h : l[j]? = some a) : a ∈ l := by
  rcases List.getElem?_eq_some.mp h with ⟨hj, he⟩
  exact he ▸ List.getElem_mem hj

theorem childCount_map (F : Report → Report)
    (hpar : ∀ r, (F r).parentReportId = r.parentReportId) (l : List Report) (i : ℕ) :
    childCount (l.map F) i = childCount l i := by
  unfold childCount
  rw [List.countP_map]
  apply List.countP_congr
  intro a _
  simp [Function.comp, hpar a]

theorem childCount_append (l1 l2 : List Report) (i : ℕ) :
    childCount (l1 ++ l2) i = childCount l1 i + childCount l2 i := by
  unfold childCount
  exact List.countP_append _ _ _

theorem verifCountOf_append (v1 v2 : List (ℕ × String)) (i : ℕ) :
    verifCountOf (v1 ++ v2) i = verifCountOf v1 i + verifCountOf v2 i := by
  unfold verifCountOf
  exact List.countP_append _ _ _

theorem goodSys_map_preserve (s : SysState) (F : Report → Report)
    (hid : ∀ r, (F r).id = r.id)
    (hpar : ∀ r, (F r).parentReportId = r.parentReportId)
    (hcnt : ∀ r, (F r).supporterCount = r.supporterCount)
    (hflag : ∀ r, r.isEmergency = econd r → (F r).isEmergency = econd (F r))
    (hg : goodSys s) : goodSys { s with db := s.db.map F } := by
  obtain ⟨⟨hf1, hf2, hf3⟩, hnd, hacc, hem⟩ := hg
  refine ⟨⟨?_, ?_, hf3⟩, ?_, ?_, ?_⟩
  · intro r hr
    rcases List.mem_map.mp hr with ⟨y, hy, hye⟩
    rw [← hye, hid y]
    exact hf1 y hy
  · intro r hr j hj
    rcases List.mem_map.mp hr with ⟨y, hy, hye⟩
    rw [← hye, hpar y] at hj
    exact hf2 y hy j hj
  · rw [show ({ s with db := s.db.map F } : SysState).db = s.db.map F from rfl,
      map_ids_of_pointwise hid]
    exact hnd
  · intro r hr hroot
    rcases List.mem_map.mp hr with ⟨y, hy, hye⟩
    have hyroot : y.parentReportId = none := by
      rw [← hpar y, hye]
      exact hroot
    have := hacc y hy hyroot
    rw [← hye, hcnt y, hid y]
    rw [show ({ s with db := s.db.map F } : SysState).db = s.db.map F from rfl]
    rw [childCount_map F hpar]
    exact this
  · intro r hr
    rcases List.mem_map.mp hr with ⟨y, hy, hye⟩
    rw [← hye]
    exact hflag y (hem y hy)

theorem goodSys_update_ite (s : SysState) (c : Report → Prop) [DecidablePred c]
    (g : Report → Report)
    (hid : ∀ r, (g r).id = r.id)
    (hpar : ∀ r, (g r).parentReportId = r.parentReportId)
    (hcnt : ∀ r, (g r).supporterCount = r.supporterCount)
    (hsev : ∀ r, (g r).severity = r.severity)
    (hflagg : ∀ r, (g r).isEmergency = r.isEmergency)
    (hg : goodSys s) :
    goodSys { s with
      db := s.db.map (fun r => if c r then update_emergency_flag (g r) else r) } := by
  apply goodSys_map_preserve s _ ?_ ?_ ?_ ?_ hg
  · intro r
    split
    · rw [show (update_emergency_flag (g r)).id = (g r).id by simp [uef_eq], hid r]
    · rfl
  · intro r
    split
    · rw [show (update_emergency_flag (g r)).parentReportId = (g r).parentReportId by
        simp [uef_eq], hpar r]
    · rfl
  · intro r
    split
    · rw [show (update_emergency_flag (g r)).supporterCount = (g r).supporterCount by
        simp [uef_eq], hcnt r]
    · rfl
  · intro r hr
    split
    · exact flag_mono_step (hsev r) (le_of_eq (hcnt r).symm) (hflagg r) hr
    · exact hr

theorem applySel_supporterCount (wards : List Ward) (now : ℤ) (sel : List Report)
    (x : Report) : (applySel wards now sel x).supporterCount = x.supporterCount := by
  induction sel generalizing x with
  | nil => rfl
  | cons r rs ih =>
    rw [applySel_cons]
    split
    · rw [ih]
      simp [uef_eq, autoAssignUpdate]
    · exact ih x

theorem applySel_severity (wards : List Ward) (now : ℤ) (sel : List Report)
    (x : Report) : (applySel wards now sel x).severity = x.severity := by
  induction sel generalizing x with
  | nil => rfl
  | cons r rs ih =>
    rw [applySel_cons]
    split
    · rw [ih]
      simp [uef_eq, autoAssignUpdate]
    · exact ih x

theorem applySel_flag (wards : List Ward) (now : ℤ) (sel : List Report) (x : Report)
    (hx : x.isEmergency = econd x) :
    (applySel wards now sel x).isEmergency = econd (applySel wards now sel x) := by
  induction sel generalizing x with
  | nil => exact hx
  | cons r rs ih =>
    rw [applySel_cons]
    split
    · apply ih
      exact flag_mono_step (by simp [autoAssignUpdate]) (by simp [autoAssignUpdate])
        (by simp [autoAssignUpdate]) hx
    · exact ih x hx

theorem findReport_some {db : List Report} {i : ℕ} {r : Report}
    (h : findReport db i = some r) : r ∈ db ∧ r.id = i := by
  unfold findReport at h
  have h2 := List.find?_some h
  exact ⟨List.mem_of_find?_eq_some h, of_decide_eq_true h2⟩

theorem applyTransition_ok_db {dist : Coord → Coord → ℤ} {now : ℤ} {db : List Report}
    {rid : ℕ} {toState : RState} {meta : TransMeta} {db2 : List Report} {r2 : Report}
    (h : applyTransition dist now db rid toState meta = Except.ok (db2, r2)) :
    db2 = updateById rid (transitionUpdate now toState meta) db := by
  cases hf : findReport db rid with
  | none =>
    simp only [applyTransition, hf] at h
    exact Except.noConfusion h
  | some report =>
    cases hc : canTransition report.state toState with
    | some rej =>
      simp only [applyTransition, hf, hc] at h
      exact Except.noConfusion h
    | none =>
      by_cases hip : toState = RState.IN_PROGRESS
      · cases hla : meta.officerLat with
        | none =>
          cases hlo : meta.officerLon with
          | none =>
            simp only [applyTransition, hf, hc, hla, hlo, if_pos hip] at h
            exact Except.noConfusion h
          | some oLon =>
            simp only [applyTransition, hf, hc, hla, hlo, if_pos hip] at h
            exact Except.noConfusion h
        | some oLat =>
          cases hlo : meta.officerLon with
          | none =>
            simp only [applyTransition, hf, hc, hla, hlo, if_pos hip] at h
            exact Except.noConfusion h
          | some oLon =>
            cases hco : report.coord with
            | none =>
              simp only [applyTransition, hf, hc, hla, hlo, hco, if_pos hip] at h
              exact Except.noConfusion h
            | some c =>
              by_cases hd : 100 < dist ⟨oLat, oLon⟩ c
              · simp only [applyTransition, hf, hc, hla, hlo, hco, if_pos hip, if_pos hd] at h
                exact Except.noConfusion h
              · simp only [applyTransition, hf, hc, hla, hlo, hco, if_pos hip, if_neg hd] at h
                injection h with h
                exact (congrArg Prod.fst h).symm
      · simp only [applyTransition, hf, hc, if_neg hip] at h
        injection h with h
        exact (congrArg Prod.fst h).symm

theorem submitProof_ok_db {dist : Coord → Coord → ℤ} {now : ℤ} {db : List Report}
    {rid : ℕ} {officer : Coord} {db2 : List Report}
    (h : submitProof dist now db rid officer = Except.ok db2) :
    db2 = updateById rid (fun r => { r with
      state := RState.RESOLVED, status := "resolved", resolvedAt := some now }) db := by
  cases hf : findReport db rid with
  | none =>
    simp only [submitProof, hf] at h
    exact Except.noConfusion h
  | some report =>
    by_cases hst : report.state = RState.IN_PROGRESS
    · cases hco : report.coord with
      | none =>
        simp only [submitProof, hf, if_pos hst, hco] at h
        injection h with h
        exact h.symm
      | some c =>
        by_cases hd : 100 < dist officer c
        · simp only [submitProof, hf, if_pos hst, hco, if_pos hd] at h
          exact Except.noConfusion h
        · simp only [submitProof, hf, if_pos hst, hco, if_neg hd] at h
          injection h with h
          exact h.symm
    · simp only [submitProof, hf, if_neg hst] at h
      exact Except.noConfusion h

theorem verifyReport_ok_shape {now : ℤ} {db : List Report} {verifs : List (ℕ × String)}
    {rid : ℕ} {token : String} {db2 : List Report} {v2 : List (ℕ × String)}
    (h : verifyReport now db verifs rid token = Except.ok (db2, v2)) :
    db2 = updateById rid (verifyUpdate now) db ∧ v2 = verifs ++ [(rid, token)] ∧
    ∃ r0, findReport db rid = some r0 := by
  by_cases htok : token.length < 8
  · simp only [verifyReport, if_pos htok] at h
    exact Except.noConfusion h
  · cases hf : findReport db rid with
    | none =>
      simp only [verifyReport, if_neg htok, hf] at h
      exact Except.noConfusion h
    | some r0 =>
      by_cases hmem : (rid, token) ∈ verifs
      · simp only [verifyReport, if_neg htok, hf, if_pos hmem] at h
        exact Except.noConfusion h
      · simp only [verifyReport, if_neg htok, hf, if_neg hmem] at h
        injection h with h
        exact ⟨(congrArg Prod.fst h).symm, (congrArg Prod.snd h).symm, r0, rfl⟩

theorem ingest_ok_shape {dist : Coord → Coord → ℤ} {wards : List Ward} {now : ℤ}
    {nextId : ℕ} {db : List Report} {inp : SubmitInput} {db2 : List Report} {res : IngestOk}
    (h : ingest dist wards now nextId db inp = Except.ok (db2, res)) :
    ∃ lat lon, inp.gpsLat = some lat ∧ inp.gpsLon = some lon ∧
    ((db2 = insertReport db (baseRow nextId now inp ⟨lat, lon⟩
        (wards.find? (fun w => w.containsPt ⟨lat, lon⟩)))) ∨
     (∃ dup, dup ∈ db ∧
        dedupCandidate dist ⟨lat, lon⟩ (inp.category.getD "") dup = true ∧
        db2 = updateById dup.id (fun r => { r with supporterCount := r.supporterCount + 1 })
          (insertReport db { baseRow nextId now inp ⟨lat, lon⟩
              (wards.find? (fun w => w.containsPt ⟨lat, lon⟩)) with
            parentReportId := some dup.id
            state := RState.MERGED
            status := "merged" }))) := by
  by_cases hv : (strFalsy inp.category || strFalsy inp.description) = true
  · simp only [ingest, if_pos hv] at h
    exact Except.noConfusion h
  · have hv2 : (strFalsy inp.category || strFalsy inp.description) = false :=
      Bool.of_not_eq_true hv
    cases hLat : inp.gpsLat with
    | none =>
      cases hLon : inp.gpsLon with
      | none =>
        simp only [ingest, hv2, Bool.false_eq_true, if_false, hLat, hLon] at h
        exact Except.noConfusion h
      | some lon =>
        simp only [ingest, hv2, Bool.false_eq_true, if_false, hLat, hLon] at h
        exact Except.noConfusion h
    | some lat =>
      cases hLon : inp.gpsLon with
      | none =>
        simp only [ingest, hv2, Bool.false_eq_true, if_false, hLat, hLon] at h
        exact Except.noConfusion h
      | some lon =>
        refine ⟨lat, lon, rfl, rfl, ?_⟩
        cases hpick : pickEarliest (db.filter
            (dedupCandidate dist ⟨lat, lon⟩ (inp.category.getD ""))) with
        | none =>
          simp only [ingest, hv2, Bool.false_eq_true, if_false, hLat, hLon, hpick] at h
          left
          injection h with h
          exact (congrArg Prod.fst h).symm
        | some dup =>
          simp only [ingest, hv2, Bool.false_eq_true, if_false, hLat, hLon, hpick] at h
          right
          have hdupf := pickEarliest_mem hpick
          refine ⟨dup, List.mem_of_mem_filter hdupf, List.of_mem_filter hdupf, ?_⟩
          injection h with h
          exact (congrArg Prod.fst h).symm

theorem transitionUpdate_id (now : ℤ) (t : RState) (meta : TransMeta) (r : Report) :
    (transitionUpdate now t meta r).id = r.id := by
  unfold transitionUpdate
  cases t <;> split_ifs <;> rfl

theorem transitionUpdate_parent (now : ℤ) (t : RState) (meta : TransMeta) (r : Report) :
    (transitionUpdate now t meta r).parentReportId = r.parentReportId := by
  unfold transitionUpdate
  cases t <;> split_ifs <;> rfl

theorem transitionUpdate_count (now : ℤ) (t : RState) (meta : TransMeta) (r : Report) :
    (transitionUpdate now t meta r).supporterCount = r.supporterCount := by
  unfold transitionUpdate
  cases t <;> split_ifs <;> rfl

theorem transitionUpdate_severity (now : ℤ) (t : RState) (meta : TransMeta) (r : Report) :
    (transitionUpdate now t meta r).severity = r.severity := by
  unfold transitionUpdate
  cases t <;> split_ifs <;> rfl

theorem transitionUpdate_flag (now : ℤ) (t : RState) (meta : TransMeta) (r : Report) :
    (transitionUpdate now t meta r).isEmergency = r.isEmergency := by
  unfold transitionUpdate
  cases t <;> split_ifs <;> rfl

theorem goodSys_transitionOp (s : SysState) (dist : Coord → Coord → ℤ) (now : ℤ)
    (rid : ℕ) (toState : RState) (meta : TransMeta) (hg : goodSys s) :
    goodSys (applyOp s (Op.transitionOp dist now rid toState meta)) := by
  cases ht : applyTransition dist now s.db rid toState meta with
  | error e =>
    simp only [applyOp, ht]
    exact hg
  | ok p =>
    obtain ⟨db2, r2⟩ := p
    simp only [applyOp, ht]
    rw [applyTransition_ok_db ht]
    exact goodSys_update_ite s (fun r => r.id = rid) (transitionUpdate now toState meta)
      (transitionUpdate_id now toState meta) (transitionUpdate_parent now toState meta)
      (transitionUpdate_count now toState meta) (transitionUpdate_severity now toState meta)
      (transitionUpdate_flag now toState meta) hg

theorem goodSys_proofOp (s : SysState) (dist : Coord → Coord → ℤ) (now : ℤ)
    (rid : ℕ) (officer : Coord) (hg : goodSys s) :
    goodSys (applyOp s (Op.proofOp dist now rid officer)) := by
  cases ht : submitProof dist now s.db rid officer with
  | error e =>
    simp only [applyOp, ht]
    exact hg
  | ok db2 =>
    simp only [applyOp, ht]
    rw [submitProof_ok_db ht]
    exact goodSys_update_ite s (fun r => r.id = rid)
      (fun r => { r with state := RState.RESOLVED, status := "resolved", resolvedAt := some now })
      (fun r => rfl) (fun r => rfl) (fun r => rfl) (fun r => rfl) (fun r => rfl) hg

theorem goodSys_autoStep1 (s : SysState) (now : ℤ) (hg : goodSys s) :
    goodSys { s with db := autoStep1 now s.db } :=
  goodSys_update_ite s (fun r => autoVerifyPred now r = true) (autoVerifyUpdate now)
    (fun r => rfl) (fun r => rfl) (fun r => rfl) (fun r => rfl) (fun r => rfl) hg

theorem goodSys_autoStep3 (s : SysState) (now : ℤ) (hg : goodSys s) :
    goodSys { s with db := autoStep3 now s.db } :=
  goodSys_update_ite s (fun r => autoUrgentPred now r = true) (autoUrgentUpdate now)
    (fun r => rfl) (fun r => rfl) (fun r => rfl) (fun r => rfl) (fun r => rfl) hg

theorem goodSys_autoStep2 (s : SysState) (wards : List Ward) (now : ℤ) (hg : goodSys s) :
    goodSys { s with db := autoStep2 wards now s.db } := by
  rw [autoStep2_eq_map]
  exact goodSys_map_preserve s
    (applySel wards now (s.db.filter (autoAssignPred now)))
    (applySel_id wards now _) (applySel_parent wards now _)
    (applySel_supporterCount wards now _) (applySel_flag wards now _) hg

theorem goodSys_autoPromotionOp (s : SysState) (wards : List Ward) (now : ℤ)
    (hg : goodSys s) : goodSys (applyOp s (Op.autoPromotionOp wards now)) := by
  have h1 := goodSys_autoStep1 s now hg
  have h2 := goodSys_autoStep2 { s with db := autoStep1 now s.db } wards now h1
  have h3 := goodSys_autoStep3
    { s with db := autoStep2 wards now (autoStep1 now s.db) } now h2
  exact h3

theorem goodSys_processEsc (env : DispatchEnv) (now : ℤ) (s : SysState) :
    ∀ (rows : List EscRow) (db : List Report) (logs : List LogEntry),
      goodSys { s with db := db } →
      goodSys { s with db := (processEsc env now rows (db, logs)).1 } := by
  intro rows
  induction rows with
  | nil => intro db logs h; exact h
  | cons row rest ih =>
    intro db logs h
    unfold processEsc
    cases hesc : escalateReport env now (db, logs) row with
    | error e => exact h
    | ok st2 =>
      rcases escalateReport_error_state env now (db, logs) row st2 hesc with hsame | ⟨_, hupd⟩
      · subst hsame
        exact ih db logs h
      · have h2 : goodSys { s with db := st2.1 } := by
          rw [hupd]
          exact goodSys_update_ite { s with db := db } (fun r => r.id = row.id)
            (fun r => { r with slaLevel := targetLevelOf now row.assignedAt,
                               lastEscalatedAt := some now })
            (fun r => rfl) (fun r => rfl) (fun r => rfl) (fun r => rfl) (fun r => rfl) h
        exact ih st2.1 st2.2 h2

theorem goodSys_escalationOp (s : SysState) (env : DispatchEnv) (wards : List Ward)
    (now : ℤ) (hg : goodSys s) : goodSys (applyOp s (Op.escalationOp env wards now)) :=
  goodSys_processEsc env now s
    (sortByAssigned ((s.db.filter (escCandidatePred now)).map (escRowOf wards)))
    s.db s.logs hg

theorem mem_updateById {i : ℕ} {f : Report → Report} {db : List Report} {x : Report}
    (h : x ∈ updateById i f db) :
    ∃ y ∈ db, x = if y.id = i then update_emergency_flag (f y) else y := by
  unfold updateById at h
  rcases List.mem_map.mp h with ⟨y, hy, hye⟩
  exact ⟨y, hy, hye.symm⟩

theorem childCount_single (x : Report) (i : ℕ) :
    childCount [x] i = if x.parentReportId = some i then 1 else 0 := by
  unfold childCount
  rw [List.countP_cons]
  by_cases h : x.parentReportId = some i
  · rw [if_pos h, if_pos (decide_eq_true h)]
    rfl
  · rw [if_neg h, if_neg (by simp [h])]
    rfl

theorem verifCountOf_single (a : ℕ) (t : String) (i : ℕ) :
    verifCountOf [(a, t)] i = if a = i then 1 else 0 := by
  unfold verifCountOf
  rw [List.countP_cons]
  by_cases h : a = i
  · rw [if_pos h, if_pos (decide_eq_true h)]
    rfl
  · rw [if_neg h, if_neg (by simp [h])]
    rfl

theorem childCount_zero {db : List Report} {n : ℕ}
    (h : ∀ y ∈ db, ∀ j, y.parentReportId = some j → j < n) : childCount db n = 0 := by
  unfold childCount
  rw [List.countP_eq_zero]
  intro y hy hc
  have hp := of_decide_eq_true hc
  exact absurd rfl (Nat.ne_of_lt (h y hy n hp)).symm

theorem verifCountOf_zero {verifs : List (ℕ × String)} {n : ℕ}
    (h : ∀ v ∈ verifs, v.1 < n) : verifCountOf verifs n = 0 := by
  unfold verifCountOf
  rw [List.countP_eq_zero]
  intro v hv hc
  have hp := of_decide_eq_true hc
  exact absurd rfl (Nat.ne_of_lt (hp ▸ h v hv)).symm

theorem fresh_not_mem {db : List Report} {n : ℕ} (h : ∀ r ∈ db, r.id < n) :
    n ∉ db.map Report.id := by
  intro hmem
  rcases List.mem_map.mp hmem with ⟨y, hy, hye⟩
  exact absurd hye (Nat.ne_of_lt (h y hy))

theorem nodup_snoc {l : List ℕ} {a : ℕ} (h1 : l.Nodup) (h2 : a ∉ l) :
    (l ++ [a]).Nodup := by
  rw [List.nodup_append]
  exact ⟨h1, List.nodup_singleton a, by
    intro x hx hxa
    rw [List.mem_singleton] at hxa
    exact h2 (hxa ▸ hx)⟩

theorem uef_flag_fresh {r : Report} (h : r.isEmergency = false) :
    (update_emergency_flag r).isEmergency = econd (update_emergency_flag r) := by
  rw [uef_econd]
  rw [show (update_emergency_flag r).isEmergency = (econd r || r.isEmergency) by simp [uef_eq]]
  rw [h, Bool.or_false]

theorem goodSys_verifyOp (s : SysState) (now : ℤ) (rid : ℕ) (token : String)
    (hg : goodSys s) : goodSys (applyOp s (Op.verifyOp now rid token)) := by
  cases hv : verifyReport now s.db s.verifs rid token with
  | error e =>
    simp only [applyOp, hv]
    exact hg
  | ok p =>
    obtain ⟨db2, v2⟩ := p
    simp only [applyOp, hv]
    obtain ⟨hdb2, hvv2, r0, hr0⟩ := verifyReport_ok_shape hv
    obtain ⟨hr0mem, hr0id⟩ := findReport_some hr0
    obtain ⟨⟨hf1, hf2, hf3⟩, hnd, hacc, hem⟩ := hg
    subst hdb2 hvv2
    refine ⟨⟨?_, ?_, ?_⟩, ?_, ?_, ?_⟩
    · intro r hr
      have hr' : r ∈ updateById rid (verifyUpdate now) s.db := hr
      rcases mem_updateById hr' with ⟨y, hy, hye⟩
      have hridy : r.id = y.id := by
        rw [hye]
        by_cases hx : y.id = rid
        · rw [if_pos hx]
          simp [uef_eq, verifyUpdate]
        · rw [if_neg hx]
      show r.id < s.nextId
      rw [hridy]
      exact hf1 y hy
    · intro r hr j hj
      have hr' : r ∈ updateById rid (verifyUpdate now) s.db := hr
      rcases mem_updateById hr' with ⟨y, hy, hye⟩
      have hpp : r.parentReportId = y.parentReportId := by
        rw [hye]
        by_cases hx : y.id = rid
        · rw [if_pos hx]
          simp [uef_eq, verifyUpdate]
        · rw [if_neg hx]
      rw [hpp] at hj
      exact hf2 y hy j hj
    · intro v hv'
      have hv'' : v ∈ s.verifs ++ [(rid, token)] := hv'
      rcases List.mem_append.mp hv'' with h | h
      · exact hf3 v h
      · rw [List.mem_singleton] at h
        subst h
        show rid < s.nextId
        exact hr0id ▸ hf1 r0 hr0mem
    · show ((updateById rid (verifyUpdate now) s.db).map Report.id).Nodup
      unfold updateById
      rw [map_ids_of_pointwise (fun x => by
        by_cases hx : x.id = rid
        · simp [hx, uef_eq, verifyUpdate]
        · simp [hx])]
      exact hnd
    · intro r hr hroot
      have hr' : r ∈ updateById rid (verifyUpdate now) s.db := hr
      rcases mem_updateById hr' with ⟨y, hy, hye⟩
      have hcc : childCount (updateById rid (verifyUpdate now) s.db) r.id
          = childCount s.db r.id := by
        unfold updateById
        exact childCount_map _ (fun x => by
          by_cases hx : x.id = rid
          · simp [hx, uef_eq, verifyUpdate]
          · simp [hx]) s.db r.id
      have hvc : verifCountOf (s.verifs ++ [(rid, token)]) r.id
          = verifCountOf s.verifs r.id + (if rid = r.id then 1 else 0) := by
        rw [verifCountOf_append, verifCountOf_single]
      show r.supporterCount = 1 + childCount (updateById rid (verifyUpdate now) s.db) r.id
        + verifCountOf (s.verifs ++ [(rid, token)]) r.id
      by_cases hcase : y.id = rid
      · have hre : r = update_emergency_flag (verifyUpdate now y) := by
          rw [hye, if_pos hcase]
        have hridy : r.id = y.id := by
          rw [hre]
          simp [uef_eq, verifyUpdate]
        have hrcnt : r.supporterCount = y.supporterCount + 1 := by
          rw [hre]
          simp [uef_eq, verifyUpdate]
        have hrpar : y.parentReportId = none := by
          have hq : r.parentReportId = y.parentReportId := by
            rw [hre]
            simp [uef_eq, verifyUpdate]
          rw [← hq]
          exact hroot
        have hold := hacc y hy hrpar
        rw [hcase] at hold
        rw [hcc, hvc, hrcnt, hridy, hcase, if_pos rfl]
        omega
      · have hre : r = y := by
          rw [hye, if_neg hcase]
        have hold := hacc y hy (hre ▸ hroot)
        rw [hcc, hvc, hre, if_neg (fun he => hcase he.symm)]
        omega
    · intro r hr
      have hr' : r ∈ updateById rid (verifyUpdate now) s.db := hr
      rcases mem_updateById hr' with ⟨y, hy, hye⟩
      by_cases hcase : y.id = rid
      · rw [hye, if_pos hcase]
        exact @flag_mono_step y (verifyUpdate now y) rfl (by
          show y.supporterCount ≤ y.supporterCount + 1
          omega) rfl (hem y hy)
      · rw [hye, if_neg hcase]
        exact hem y hy

theorem goodSys_insert_root (s : SysState) (B : Report)
    (hBid : B.id = s.nextId) (hBpar : B.parentReportId = none)
    (hBcnt : B.supporterCount = 1) (hBflag : B.isEmergency = false)
    (hg : goodSys s) :
    goodSys { s with db := insertReport s.db B, nextId := s.nextId + 1 } := by
  obtain ⟨⟨hf1, hf2, hf3⟩, hnd, hacc, hem⟩ := hg
  have hUid : (update_emergency_flag B).id = s.nextId := by
    simp [uef_eq, hBid]
  have hUpar : (update_emergency_flag B).parentReportId = none := by
    simp [uef_eq, hBpar]
  have hUcnt : (update_emergency_flag B).supporterCount = 1 := by
    simp [uef_eq, hBcnt]
  refine ⟨⟨?_, ?_, ?_⟩, ?_, ?_, ?_⟩
  · intro r hr
    have hr' : r ∈ s.db ++ [update_emergency_flag B] := hr
    show r.id < s.nextId + 1
    rcases List.mem_append.mp hr' with h | h
    · exact Nat.lt_succ_of_lt (hf1 r h)
    · rw [List.mem_singleton] at h
      rw [h, hUid]
      exact Nat.lt_succ_self _
  · intro r hr j hj
    have hr' : r ∈ s.db ++ [update_emergency_flag B] := hr
    show j < s.nextId + 1
    rcases List.mem_append.mp hr' with h | h
    · exact Nat.lt_succ_of_lt (hf2 r h j hj)
    · rw [List.mem_singleton] at h
      rw [h, hUpar] at hj
      exact Option.noConfusion hj
  · intro v hv
    exact Nat.lt_succ_of_lt (hf3 v hv)
  · show ((s.db ++ [update_emergency_flag B]).map Report.id).Nodup
    rw [List.map_append]
    rw [show List.map Report.id [update_emergency_flag B] = [s.nextId] by simp [hUid]]
    exact nodup_snoc hnd (fresh_not_mem hf1)
  · intro r hr hroot
    have hr' : r ∈ s.db ++ [update_emergency_flag B] := hr
    have hcc : childCount (s.db ++ [update_emergency_flag B]) r.id
        = childCount s.db r.id := by
      rw [childCount_append, childCount_single]
      simp [hUpar]
    show r.supporterCount = 1 + childCount (s.db ++ [update_emergency_flag B]) r.id
      + verifCountOf s.verifs r.id
    rw [hcc]
    rcases List.mem_append.mp hr' with h | h
    · exact hacc r h hroot
    · rw [List.mem_singleton] at h
      rw [h, hUcnt, hUid]
      rw [childCount_zero (fun y hy j hj => hf2 y hy j hj), verifCountOf_zero hf3]
  · intro r hr
    have hr' : r ∈ s.db ++ [update_emergency_flag B] := hr
    rcases List.mem_append.mp hr' with h | h
    · exact hem r h
    · rw [List.mem_singleton] at h
      rw [h]
      exact uef_flag_fresh hBflag

theorem goodSys_insert_merge (s : SysState) (C : Report) (dup : Report)
    (hdup : dup ∈ s.db)
    (hCid : C.id = s.nextId) (hCpar : C.parentReportId = some dup.id)
    (hCflag : C.isEmergency = false)
    (hg : goodSys s) :
    goodSys { s with
      db := updateById dup.id (fun r => { r with supporterCount := r.supporterCount + 1 })
        (insertReport s.db C)
      nextId := s.nextId + 1 } := by
  obtain ⟨⟨hf1, hf2, hf3⟩, hnd, hacc, hem⟩ := hg
  have hdupid : dup.id < s.nextId := hf1 dup hdup
  have hUCid : (update_emergency_flag C).id = s.nextId := by
    simp [uef_eq, hCid]
  have hUCpar : (update_emergency_flag C).parentReportId = some dup.id := by
    simp [uef_eq, hCpar]
  have hsplit : updateById dup.id
      (fun r => { r with supporterCount := r.supporterCount + 1 }) (insertReport s.db C)
      = updateById dup.id (fun r => { r with supporterCount := r.supporterCount + 1 }) s.db
        ++ [update_emergency_flag C] := by
    simp only [insertReport, updateById, List.map_append, List.map_cons, List.map_nil, hUCid]
    rw [if_neg (fun he => absurd he.symm (Nat.ne_of_lt hdupid))]
  rw [hsplit]
  have hcc : ∀ i, childCount (updateById dup.id
      (fun r => { r with supporterCount := r.supporterCount + 1 }) s.db
      ++ [update_emergency_flag C]) i
      = childCount s.db i + (if dup.id = i then 1 else 0) := by
    intro i
    rw [childCount_append, childCount_single]
    have hD : childCount (updateById dup.id
        (fun r => { r with supporterCount := r.supporterCount + 1 }) s.db) i
        = childCount s.db i := by
      unfold updateById
      exact childCount_map _ (fun x => by
        by_cases hx : x.id = dup.id
        · simp [hx, uef_eq]
        · simp [hx]) s.db i
    rw [hD]
    simp [hUCpar]
  refine ⟨⟨?_, ?_, ?_⟩, ?_, ?_, ?_⟩
  · intro r hr
    have hr' : r ∈ updateById dup.id
        (fun r => { r with supporterCount := r.supporterCount + 1 }) s.db
        ++ [update_emergency_flag C] := hr
    show r.id < s.nextId + 1
    rcases List.mem_append.mp hr' with h | h
    · rcases mem_updateById h with ⟨y, hy, hye⟩
      have hridy : r.id = y.id := by
        rw [hye]
        by_cases hx : y.id = dup.id
        · rw [if_pos hx]
          simp [uef_eq]
        · rw [if_neg hx]
      rw [hridy]
      exact Nat.lt_succ_of_lt (hf1 y hy)
    · rw [List.mem_singleton] at h
      rw [h, hUCid]
      exact Nat.lt_succ_self _
  · intro r hr j hj
    have hr' : r ∈ updateById dup.id
        (fun r => { r with supporterCount := r.supporterCount + 1 }) s.db
        ++ [update_emergency_flag C] := hr
    show j < s.nextId + 1
    rcases List.mem_append.mp hr' with h | h
    · rcases mem_updateById h with ⟨y, hy, hye⟩
      have hpp : r.parentReportId = y.parentReportId := by
        rw [hye]
        by_cases hx : y.id = dup.id
        · rw [if_pos hx]
          simp [uef_eq]
        · rw [if_neg hx]
      rw [hpp] at hj
      exact Nat.lt_succ_of_lt (hf2 y hy j hj)
    · rw [List.mem_singleton] at h
      rw [h, hUCpar] at hj
      injection hj with hj
      rw [← hj]
      exact Nat.lt_succ_of_lt hdupid
  · intro v hv
    exact Nat.lt_succ_of_lt (hf3 v hv)
  · show ((updateById dup.id
        (fun r => { r with supporterCount := r.supporterCount + 1 }) s.db
        ++ [update_emergency_flag C]).map Report.id).Nodup
    rw [List.map_append]
    rw [show List.map Report.id [update_emergency_flag C] = [s.nextId] by simp [hUCid]]
    unfold updateById
    rw [map_ids_of_pointwise (fun x => by
      by_cases hx : x.id = dup.id
      · simp [hx, uef_eq]
      · simp [hx])]
    exact nodup_snoc hnd (fresh_not_mem hf1)
  · intro r hr hroot
    have hr' : r ∈ updateById dup.id
        (fun r => { r with supporterCount := r.supporterCount + 1 }) s.db
        ++ [update_emergency_flag C] := hr
    show r.supporterCount = 1 + childCount (updateById dup.id
        (fun r => { r with supporterCount := r.supporterCount + 1 }) s.db
        ++ [update_emergency_flag C]) r.id + verifCountOf s.verifs r.id
    rw [hcc r.id]
    rcases List.mem_append.mp hr' with h | h
    · rcases mem_updateById h with ⟨y, hy, hye⟩
      by_cases hycase : y.id = dup.id
      · have hre : r = update_emergency_flag
            { y with supporterCount := y.supporterCount + 1 } := by
          rw [hye, if_pos hycase]
        have hridy : r.id = y.id := by
          rw [hre]
          simp [uef_eq]
        have hrcnt : r.supporterCount = y.supporterCount + 1 := by
          rw [hre]
          simp [uef_eq]
        have hypar : y.parentReportId = none := by
          have hq : r.parentReportId = y.parentReportId := by
            rw [hre]
            simp [uef_eq]
          rw [← hq]
          exact hroot
        have hold := hacc y hy hypar
        rw [hycase] at hold
        rw [hrcnt, hridy, hycase, if_pos rfl]
        omega
      · have hre : r = y := by
          rw [hye, if_neg hycase]
        have hold := hacc y hy (hre ▸ hroot)
        rw [hre, if_neg (fun he => hycase he.symm)]
        omega
    · rw [List.mem_singleton] at h
      rw [h, hUCpar] at hroot
      exact Option.noConfusion hroot
  · intro r hr
    have hr' : r ∈ updateById dup.id
        (fun r => { r with supporterCount := r.supporterCount + 1 }) s.db
        ++ [update_emergency_flag C] := hr
    rcases List.mem_append.mp hr' with h | h
    · rcases mem_updateById h with ⟨y, hy, hye⟩
      by_cases hycase : y.id = dup.id
      · rw [hye, if_pos hycase]
        exact @flag_mono_step y { y with supporterCount := y.supporterCount + 1 } rfl (by
          show y.supporterCount ≤ y.supporterCount + 1
          omega) rfl (hem y hy)
      · rw [hye, if_neg hycase]
        exact hem y hy
    · rw [List.mem_singleton] at h
      rw [h]
      exact uef_flag_fresh hCflag

theorem goodSys_ingestOp (s : SysState) (dist : Coord → Coord → ℤ) (wards : List Ward)
    (now : ℤ) (inp : SubmitInput) (hg : goodSys s) :
    goodSys (applyOp s (Op.ingestOp dist wards now inp)) := by
  cases hi : ingest dist wards now s.nextId s.db inp with
  | error e =>
    simp only [applyOp, hi]
    exact hg
  | ok p =>
    obtain ⟨db2, res⟩ := p
    simp only [applyOp, hi]
    obtain ⟨lat, lon, hLat, hLon, hsh⟩ := ingest_ok_shape hi
    rcases hsh with hnew | ⟨dup, hdup, hdupc, hmerge⟩
    · rw [hnew]
      exact goodSys_insert_root s _ rfl rfl rfl rfl hg
    · rw [hmerge]
      exact goodSys_insert_merge s _ dup hdup rfl rfl rfl hg

theorem goodSys_applyOp (s : SysState) (op : Op) (hg : goodSys s) :
    goodSys (applyOp s op) := by
  cases op with
  | ingestOp dist wards now inp => exact goodSys_ingestOp s dist wards now inp hg
  | verifyOp now rid token => exact goodSys_verifyOp s now rid token hg
  | transitionOp dist now rid toState meta =>
    exact goodSys_transitionOp s dist now rid toState meta hg
  | proofOp dist now rid officer => exact goodSys_proofOp s dist now rid officer hg
  | autoPromotionOp wards now => exact goodSys_autoPromotionOp s wards now hg
  | escalationOp env wards now => exact goodSys_escalationOp s env wards now hg

theorem goodSys_initState : goodSys initState :=
  ⟨⟨fun r hr => absurd hr (List.not_mem_nil r),
    fun r hr => absurd hr (List.not_mem_nil r),
    fun v hv => absurd hv (List.not_mem_nil v)⟩,
   List.nodup_nil,
   fun r hr => absurd hr (List.not_mem_nil r),
   fun r hr => absurd hr (List.not_mem_nil r)⟩

theorem goodSys_applyOps (ops : List Op) (s : SysState) (hg : goodSys s) :
    goodSys (applyOps ops s) := by
  induction ops generalizing s with
  | nil => exact hg
  | cons op rest ih =>
    simp only [applyOps, List.foldl_cons]
    exact ih (applyOp s op) (goodSys_applyOp s op hg)

/-- C1, corrected: the spec claims that every root's `supporter_count` equals
1 plus its number of merged children, but `POST /api/reports/:id/verify`
(routes/verify.js) also increments `supporter_count` without inserting a
child row, so the claimed equation breaks after one citizen verification
(see `c1_counterexample`). The accounting the code actually maintains over
every sequence of public operations from the empty store: a root's
`supporter_count` equals 1 plus its children plus the citizen verifications
recorded against it in `user_verifications`. -/
theorem c1_supporter_accounting (ops : List Op) :
    supporterAccounting (applyOps ops initState) :=
  (goodSys_applyOps ops initState goodSys_initState).2.2.1

theorem c1_counterexample : ¬ claimedSupporterInvariant (applyOps demoOps initState) := by
  unfold claimedSupporterInvariant
  decide

/-- C9, confirmed: over every sequence of public operations from the empty
store, every stored issue row satisfies
`is_emergency = (severity = critical ∨ supporter_count ≥ 10)`. The trigger
`update_emergency_flag` only ever sets the flag to TRUE and never clears it,
but no operation lowers a row's severity or supporter count, and every write
that raises the count routes the row through the trigger, so the equality
holds in every reachable state. -/
theorem c9_emergency_flag (ops : List Op) :
    emergencyConsistent (applyOps ops initState).db :=
  (goodSys_applyOps ops initState goodSys_initState).2.2.2
